import Mathlib

/-!
Verification of the trade ingestion and reconciliation pipeline
(`server/csvImport.ts`, `server/storage.ts`, `server/emailIngest.ts`).

The TypeScript source is shallowly embedded:

* JavaScript numbers are modelled by `JNum`, an exact rational pair
  `num/den`.  The parser reduces every parsed value to lowest terms
  (`JNum.norm`), so equal JS values are equal pairs; all arithmetic the
  pipeline performs (sums and differences of parsed decimal cells) is
  exact, and the decimal rendering of a JS number (injective on values)
  is modelled by the injective rendering `jnumStr`.
* JavaScript `Date` values are modelled by `JSDate`, carrying the epoch
  milliseconds (`getTime()`) and the ISO calendar date
  (`toISOString().split('T')[0]`).
* The SHA-256 hex digest used by `generateRowHash` is an external crypto
  primitive; modulo hash collisions it is injective, so the fingerprint
  is modelled by its pre-image key string.
* The database tables are modelled by in-memory lists threaded through
  the functions; `async` failure of a database call is modelled by an
  explicit failure schedule (`dbFail`), with `noFail` for the happy
  path.
-/

/-! ### Digit and number rendering

`digChar`, `natStr`, `intStr`, `jnumStr` model the (injective) decimal
rendering that JavaScript string interpolation applies to numbers. -/

/-- One decimal digit as a character. -/
def digChar (d : Nat) : Char :=
  if d = 0 then '0' else if d = 1 then '1' else if d = 2 then '2'
  else if d = 3 then '3' else if d = 4 then '4' else if d = 5 then '5'
  else if d = 6 then '6' else if d = 7 then '7' else if d = 8 then '8' else '9'

/-- Little-endian base-10 digits, by structural recursion on a fuel
argument so that the kernel can evaluate it. -/
def natDigitsAux : Nat → Nat → List Nat
  | 0, _ => []
  | fuel + 1, n => if n = 0 then [] else n % 10 :: natDigitsAux fuel (n / 10)

/-- Little-endian base-10 digits of a natural number. -/
def natDigits (n : Nat) : List Nat := natDigitsAux n n

/-- Greatest common divisor, by structural recursion on a fuel argument
so that the kernel can evaluate it (`Nat.gcd` is defined by well-founded
recursion). -/
def gcdAux : Nat → Nat → Nat → Nat
  | 0, _, y => y
  | fuel + 1, x, y => if x = 0 then y else gcdAux fuel (y % x) x

/-- Greatest common divisor (kernel-evaluable). -/
def natGcd (x y : Nat) : Nat := gcdAux x x y

/-- Decimal rendering of a natural number. -/
def natStr (n : Nat) : String :=
  if n = 0 then "0" else ⟨(natDigits n).reverse.map digChar⟩

/-- Decimal rendering of an integer (leading minus sign when negative). -/
def intStr (i : Int) : String :=
  if i < 0 then "-" ++ natStr i.natAbs else natStr i.natAbs

/-- A JavaScript number, modelled as an exact rational pair.  The
pipeline only ever adds, subtracts and compares parsed decimal values,
so exact pairs model the source computations faithfully on the inputs
the claims exercise. -/
structure JNum where
  num : Int
  den : Nat
  deriving DecidableEq, Repr

/-- The JS number `0`. -/
def JNum.zero : JNum := ⟨0, 1⟩

/-- Build a `JNum` from an integer. -/
def JNum.ofInt (i : Int) : JNum := ⟨i, 1⟩

/-- Reduce a pair to lowest terms: the canonical representative of the
JS number's value.  The parser returns canonical pairs, so structural
equality of parsed numbers coincides with JS value equality. -/
def JNum.norm (q : JNum) : JNum :=
  let g := natGcd q.num.natAbs q.den
  if g = 0 then q else ⟨q.num / g, q.den / g⟩

/-- Exact addition (`a + b` on JS numbers). -/
def JNum.add (a b : JNum) : JNum := ⟨a.num * b.den + b.num * a.den, a.den * b.den⟩

/-- Exact subtraction (`a - b` on JS numbers). -/
def JNum.sub (a b : JNum) : JNum := ⟨a.num * b.den - b.num * a.den, a.den * b.den⟩

/-- Strict positivity of a parsed value (denominators produced by the
pipeline are positive powers of ten). -/
def JNum.isPos (a : JNum) : Bool := 0 < a.num

/-- Strict negativity of a parsed value. -/
def JNum.isNeg (a : JNum) : Bool := a.num < 0

/-- JavaScript falsiness of a number: `!x` is true exactly for `0`. -/
def JNum.isFalsy (a : JNum) : Bool := a.num = 0

/-- Two `JNum`s denote the same rational value (cross multiplication). -/
def JNum.sameVal (a b : JNum) : Prop := a.num * b.den = b.num * a.den

/-- Injective rendering of a `JNum`, standing in for the (injective)
JavaScript decimal rendering of a number's value: the parser only
produces canonical pairs (`JNum.norm`), on which representation
equality coincides with value equality, so two pipeline numbers render
equally exactly when JS would render them equally. -/
def jnumStr (q : JNum) : String := intStr q.num ++ "/" ++ natStr q.den

/-- Rendering of an optional number; `undefined` interpolates to the
literal string `"undefined"` in a JS template string. -/
def optJnumStr : Option JNum → String
  | none => "undefined"
  | some q => jnumStr q

/-- Rendering of an optional integer (epoch milliseconds). -/
def optIntStr : Option Int → String
  | none => "undefined"
  | some i => intStr i

/-! ### String utilities (kernel-reducible models of the JS string
operations used by the pipeline) -/

/-- JavaScript `String.prototype.trim`. -/
def strTrim (s : String) : String :=
  ⟨((s.data.dropWhile Char.isWhitespace).reverse.dropWhile Char.isWhitespace).reverse⟩

/-- JavaScript `String.prototype.toLowerCase` (ASCII). -/
def strLower (s : String) : String := ⟨s.data.map Char.toLower⟩

/-- JavaScript `String.prototype.toUpperCase` (ASCII). -/
def strUpper (s : String) : String := ⟨s.data.map Char.toUpper⟩

/-- JavaScript `String.prototype.includes`: substring containment. -/
def strIncludes (s pat : String) : Bool := decide (pat.data <:+: s.data)

/-- Split a character list on a separator character. -/
def splitOnCharFn (c : Char) : List Char → List (List Char)
  | [] => [[]]
  | x :: xs =>
    match splitOnCharFn c xs with
    | [] => if x = c then [[], []] else [[x]]
    | h :: t => if x = c then [] :: h :: t else (x :: h) :: t

/-- JavaScript `String.prototype.split` with a one-character separator. -/
def strSplitOn (s : String) (c : Char) : List String :=
  (splitOnCharFn c s.data).map String.mk

/-- Parse a non-empty all-digit character list as a natural number. -/
def digitsToNat (l : List Char) : Nat :=
  l.foldl (fun a c => a * 10 + (c.toNat - 48)) 0

/-- Parse a decimal string as a natural number; `none` unless the string
is non-empty and all digits. -/
def parseNat (s : String) : Option Nat :=
  if s.data ≠ [] ∧ s.data.all Char.isDigit then some (digitsToNat s.data) else none

/-- Model of JavaScript `parseFloat`: skip leading whitespace, optional
sign, then the longest prefix `digits[.digits]`; trailing junk is
ignored; `none` models `NaN` (no digits at all).  The exponent form
(`1e-7`) is not modelled; no input the pipeline's claims exercise uses
it. -/
def jsParseFloat (s : String) : Option JNum :=
  let cs := s.data.dropWhile Char.isWhitespace
  let sign : Int := if cs.head? = some '-' then -1 else 1
  let cs := if cs.head? = some '-' ∨ cs.head? = some '+' then cs.tail else cs
  let intPart := cs.takeWhile Char.isDigit
  let rest := cs.dropWhile Char.isDigit
  let fracPart := if rest.head? = some '.' then rest.tail.takeWhile Char.isDigit else []
  if intPart = [] ∧ fracPart = [] then none
  else some (JNum.norm
    ⟨sign * (digitsToNat intPart * 10 ^ fracPart.length + digitsToNat fracPart),
      10 ^ fracPart.length⟩)

/-! ### JavaScript dates

`new Date(string)` is a host primitive; it is modelled by the restricted
ISO grammar `YYYY-MM-DD[THH:MM[:SS]]` (the only shapes the pipeline's
fixtures use).  A `JSDate` carries the epoch milliseconds returned by
`getTime()` and the calendar date returned by
`toISOString().split('T')[0]`. -/

structure JSDate where
  ms : Int
  iso : String
  deriving DecidableEq, Repr

/-- Days from the civil epoch 1970-01-01 (standard civil-from-days
algorithm; evaluated only on post-1970 fixture dates). -/
def daysFromCivil (y m d : Int) : Int :=
  let y := y - (if m ≤ 2 then 1 else 0)
  let era := (if 0 ≤ y then y else y - 399) / 400
  let yoe := y - era * 400
  let mp := (m + 9) % 12
  let doy := (153 * mp + 2) / 5 + d - 1
  let doe := yoe * 365 + yoe / 4 - yoe / 100 + doy
  era * 146097 + doe - 719468

/-- Parse the time-of-day part `HH:MM[:SS]` into milliseconds. -/
def parseTimeOfDay (s : String) : Option Int :=
  if s = "" then some 0 else
  match (strSplitOn s ':').map parseNat with
  | [some h, some mi] => some (((h * 60 + mi) * 60) * 1000)
  | [some h, some mi, some se] => some (((h * 60 + mi) * 60 + se) * 1000)
  | _ => none

/-- Model of `new Date(value)` on the restricted ISO grammar. -/
def jsDateParse (s : String) : Option JSDate :=
  match strSplitOn s 'T' with
  | [datePart] => jsDateParseParts datePart ""
  | [datePart, timePart] => jsDateParseParts datePart timePart
  | _ => none
where
  jsDateParseParts (datePart timePart : String) : Option JSDate :=
    match (strSplitOn datePart '-').map parseNat with
    | [some y, some mo, some d] =>
      if 1 ≤ mo ∧ mo ≤ 12 ∧ 1 ≤ d ∧ d ≤ 31 then
        match parseTimeOfDay timePart with
        | some t => some ⟨daysFromCivil y mo d * 86400000 + t, datePart⟩
        | none => none
      else none
    | _ => none

/-! ### Value Normalizer (`normalizeValue` in `csvImport.ts`)

The TS function takes a `type` tag and returns `any`; it is embedded as
one Lean function per tag, each reproducing the shared empty-input guard
`if (!value || value.trim() === '') return null`. -/

/-- `normalizeValue(value, 'number')`: strip `$` and `,`, `parseFloat`,
and collapse `NaN` to `0`. -/
def normalizeNumber (value : String) : Option JNum :=
  if strTrim value = "" then none
  else
    let cleaned : String := ⟨(strTrim value).data.filter (fun c => ¬(c = '$' ∨ c = ','))⟩
    some ((jsParseFloat cleaned).getD JNum.zero)

/-- `normalizeValue(value, 'date')`. -/
def normalizeDate (value : String) : Option JSDate :=
  if strTrim value = "" then none else jsDateParse (strTrim value)

/-- Core of `normalizeValue(value, 'side')` after the empty guard:
substring matching against buy/long, then sell/short, then the exact
fallback. -/
def csvSideOf (value : String) : String :=
  let lower := strLower (strTrim value)
  if strIncludes lower "buy" ∨ strIncludes lower "long" then "long"
  else if strIncludes lower "sell" ∨ strIncludes lower "short" then "short"
  else if lower = "long" ∨ lower = "short" then lower else "long"

/-- `normalizeValue(value, 'side')`. -/
def normalizeSideCsv (value : String) : Option String :=
  if strTrim value = "" then none else some (csvSideOf value)

/-- `normalizeValue(value, 'symbol')`: uppercase, no further
canonicalization. -/
def normalizeSymbol (value : String) : Option String :=
  if strTrim value = "" then none else some (strUpper (strTrim value))

/-! ### Data model -/

/-- A raw CSV record: column name to cell string.  A missing column
reads as the empty string (JS `undefined` is falsy, like `''`). -/
def CsvRow := List (String × String)

/-- Cell lookup, `row[columnName]`. -/
def getCell (row : CsvRow) (key : String) : String :=
  match List.lookup key row with
  | some v => v
  | none => ""

/-- The `MappingSpec` interface of `csvImport.ts`. -/
structure MappingSpec where
  symbol : String
  side : String
  qty : String
  entryPrice : String
  exitPrice : Option String := none
  entryTime : String
  exitTime : Option String := none
  fees : Option String := none
  pnl : Option String := none
  brokerExecutionId : Option String := none
  deriving DecidableEq, Repr

/-- The `ParsedTrade` interface (a trade candidate).  `side` holds
`"long"` or `"short"`; `fees` is an `Option` because a mapped fees
column with an empty cell yields `null` at runtime despite the TS
`number` annotation. -/
structure ParsedTrade where
  symbol : String
  side : String
  qty : JNum
  entryPrice : JNum
  exitPrice : Option JNum := none
  entryTime : JSDate
  exitTime : Option JSDate := none
  fees : Option JNum := some JNum.zero
  pnl : Option JNum := none
  brokerExecutionId : Option String := none
  deriving DecidableEq, Repr

/-! ### Format Detector (`detectCsvFormat`) -/

def apexHeaders : List String :=
  ["Entry Time", "Exit Time", "Contract", "P/L", "Commissions", "Side"]

def apexMapping : MappingSpec :=
  { symbol := "Contract", side := "Side", qty := "Qty", entryPrice := "Entry Price",
    exitPrice := some "Exit Price", entryTime := "Entry Time", exitTime := some "Exit Time",
    fees := some "Commissions", pnl := some "P/L" }

def topstepHeaders : List String :=
  ["Instrument", "Quantity", "Buy/Sell", "PnL", "Fees"]

def topstepMapping : MappingSpec :=
  { symbol := "Instrument", side := "Buy/Sell", qty := "Quantity",
    entryPrice := "Entry Price", exitPrice := some "Exit Price", entryTime := "Time",
    exitTime := some "Exit Time", fees := some "Fees", pnl := some "PnL" }

def tptHeaders : List String :=
  ["Symbol", "Side", "Filled Qty", "Avg Price", "Realized PnL"]

def tptMapping : MappingSpec :=
  { symbol := "Symbol", side := "Side", qty := "Filled Qty", entryPrice := "Avg Price",
    exitPrice := some "Exit Price", entryTime := "Time", exitTime := some "Exit Time",
    fees := some "Fees", pnl := some "Realized PnL" }

/-- Number of a signature's headers present (case-insensitively) in the
supplied header set. -/
def matchCount (sig : List String) (headers : List String) : Nat :=
  (sig.filter (fun h => (headers.map strLower).contains (strLower h))).length

/-- `detectCsvFormat`: first signature reaching 4 matches wins, in the
fixed order apex, topstep, tpt. -/
def detectCsvFormat (headers : List String) : Option (String × MappingSpec) :=
  if 4 ≤ matchCount apexHeaders headers then some ("apex", apexMapping)
  else if 4 ≤ matchCount topstepHeaders headers then some ("topstep", topstepMapping)
  else if 4 ≤ matchCount tptHeaders headers then some ("tpt", tptMapping)
  else none

/-! ### Row Parser (`parseCsvRow`) -/

/-- JS truthiness of an optional number: `null` is falsy, and so is any
number of value `0` (whatever its parsed representation). -/
def numFalsy : Option JNum → Bool
  | none => true
  | some q => q.num = 0

/-- The JS truthiness test `!symbol || !side || !qty || !entryPrice ||
!entryTime` applied to the five normalized mandatory fields. -/
def mandatoryFalsy (symbol side : Option String) (qty entryPrice : Option JNum)
    (entryTime : Option JSDate) : Bool :=
  symbol = none ∨ side = none ∨ numFalsy qty ∨ numFalsy entryPrice ∨
    entryTime = none

/-- `parseCsvRow(row, mapping)`: `none` models the TS `null` return. -/
def parseCsvRow (row : CsvRow) (m : MappingSpec) : Option ParsedTrade :=
  let symbol := normalizeSymbol (getCell row m.symbol)
  let side := normalizeSideCsv (getCell row m.side)
  let qty := normalizeNumber (getCell row m.qty)
  let entryPrice := normalizeNumber (getCell row m.entryPrice)
  let entryTime := normalizeDate (getCell row m.entryTime)
  if mandatoryFalsy symbol side qty entryPrice entryTime then none
  else some
    { symbol := symbol.getD ""
      side := side.getD ""
      qty := qty.getD JNum.zero
      entryPrice := entryPrice.getD JNum.zero
      exitPrice := match m.exitPrice with
        | some col => normalizeNumber (getCell row col)
        | none => none
      entryTime := entryTime.getD ⟨0, ""⟩
      exitTime := match m.exitTime with
        | some col => normalizeDate (getCell row col)
        | none => none
      fees := match m.fees with
        | some col => normalizeNumber (getCell row col)
        | none => some JNum.zero
      pnl := match m.pnl with
        | some col => normalizeNumber (getCell row col)
        | none => none
      brokerExecutionId := match m.brokerExecutionId with
        | some col => some (getCell row col)
        | none => none }

/-! ### Dedup Key Generator (`generateRowHash`)

The source computes the SHA-256 hex digest of the key string
```${accountId}-${symbol}-${side}-${qty}-${entryTime?.getTime()}-${exitTime?.getTime()}-${entryPrice}-${exitPrice}` ``;
the digest of an injective key is modelled by the key itself. -/

def generateRowHash (trade : ParsedTrade) (accountId : String) : String :=
  accountId ++ ("-" ++ (trade.symbol ++ ("-" ++ (trade.side ++ ("-" ++
    (jnumStr trade.qty ++ ("-" ++ (intStr trade.entryTime.ms ++ ("-" ++
    (optIntStr (trade.exitTime.map JSDate.ms) ++ ("-" ++
    (jnumStr trade.entryPrice ++ ("-" ++ optJnumStr trade.exitPrice)))))))))))))

/-! ### Ledger and metrics stores -/

/-- A persisted ledger row (`trades` table).  `id` models the database
row id (serial for CSV inserts; the webhook's `nanoid` id is modelled by
a caller-supplied fresh id).  `entryTime` is optional because the
webhook adapter stores whatever `new Date(payload.time)` produced —
`none` models a JS `Invalid Date`. -/
structure StoredTrade where
  id : Nat
  userId : String
  tradingAccountId : String
  symbol : String
  side : String
  qty : String
  entryPrice : String
  exitPrice : Option String := none
  entryTime : Option JSDate
  exitTime : Option JSDate := none
  fees : String
  pnl : Option String := none
  brokerExecutionId : Option String := none
  rowHash : Option String := none
  source : Option String := none
  externalId : Option String := none
  importSource : String
  deriving DecidableEq, Repr

/-- A daily metrics row (`dailyMetrics` table); the JSON stats blob is
modelled by its single field, the day's trade count. -/
structure MetricRow where
  userId : String
  tradingAccountId : String
  tradeDate : String
  grossPnl : JNum
  netPnl : JNum
  winCount : Nat
  lossCount : Nat
  tradeCount : Nat
  deriving DecidableEq, Repr

/-- `parseFloat(x || '0')` as used by `recalculateDailyMetrics` on
stored decimal strings (the stored fixtures are always numeric, so the
`NaN` case is collapsed to `0`). -/
def parseStoredNum (s : String) : JNum :=
  (jsParseFloat (if s = "" then "0" else s)).getD JNum.zero

/-- The per-day aggregation loop of `recalculateDailyMetrics` over a
list of ledger rows: gross P&L, net P&L, win count, loss count. -/
def aggregateTrades (rows : List StoredTrade) : JNum × JNum × Nat × Nat :=
  rows.foldl
    (fun acc r =>
      let tradePnl := parseStoredNum ((r.pnl).getD "")
      let tradeFees := parseStoredNum r.fees
      (acc.1.add tradePnl, acc.2.1.add (tradePnl.sub tradeFees),
        acc.2.2.1 + (if tradePnl.isPos then 1 else 0),
        acc.2.2.2 + (if tradePnl.isNeg then 1 else 0)))
    (JNum.zero, JNum.zero, 0, 0)

/-- `recalculateDailyMetrics(userId, accountId, dates)`: for each date,
reads the stored trades of the user and account — the query has no
date filter, despite the source's own comment `// Get all trades for
this date` — aggregates them, and upserts one metrics row keyed by
(user, account, date). -/
def recalculateDailyMetrics (userId accountId : String) (dates : List String)
    (ledger : List StoredTrade) (metrics : List MetricRow) : List MetricRow :=
  dates.foldl
    (fun ms date =>
      let dayTrades := ledger.filter
        (fun r => r.userId = userId ∧ r.tradingAccountId = accountId)
      if dayTrades.isEmpty then ms
      else
        let agg := aggregateTrades dayTrades
        let row : MetricRow :=
          { userId := userId, tradingAccountId := accountId, tradeDate := date,
            grossPnl := agg.1, netPnl := agg.2.1, winCount := agg.2.2.1,
            lossCount := agg.2.2.2, tradeCount := dayTrades.length }
        if ms.any (fun r => r.userId = userId ∧ r.tradingAccountId = accountId ∧
            r.tradeDate = date) then
          ms.map (fun r => if r.userId = userId ∧ r.tradingAccountId = accountId ∧
            r.tradeDate = date then row else r)
        else ms ++ [row])
    metrics

/-- The Daily Metrics aggregate as the specification words it: a pure
function of the ledger rows of that (user, account, date) — gross P&L,
net P&L (gross minus fees), strictly-positive wins, strictly-negative
losses.  Stated for comparison with `recalculateDailyMetrics`. -/
def specDayAggregate (userId accountId date : String)
    (ledger : List StoredTrade) : JNum × JNum × Nat × Nat :=
  aggregateTrades (ledger.filter
    (fun r => r.userId = userId ∧ r.tradingAccountId = accountId ∧
      r.entryTime.map JSDate.iso = some date))

/-! ### Ingestion Orchestrator (`importCsvTrades`) -/

/-- The `ImportResult` interface. -/
structure ImportResult where
  inserted : Nat
  updated : Nat
  daysTouched : List String
  errors : List String
  deriving DecidableEq, Repr

/-- Mutable state threaded through the import loop.  `opCount` indexes
the database calls made so far, so that a failure schedule can target a
specific call. -/
structure ImpState where
  inserted : Nat := 0
  updated : Nat := 0
  errors : List String := []
  days : List String := []
  ledger : List StoredTrade
  nextId : Nat
  opCount : Nat := 0
  deriving Repr

/-- A failure schedule for database calls: `dbFail k = true` makes the
`k`-th database call of the batch reject. -/
def DbSchedule := Nat → Bool

/-- The happy path: no database call fails. -/
def noFail : DbSchedule := fun _ => false

/-- `Set.add` on the `daysTouched` set (insertion order preserved). -/
def addDay (d : String) (l : List String) : List String :=
  if l.contains d then l else l ++ [d]

/-- The `tradeData` record built for an upsert (the numeric fields are
stored as their rendered strings, as the source calls `toString()`). -/
def mkTradeData (userId accountId : String) (t : ParsedTrade) (f : JNum)
    (hash source : String) (id : Nat) : StoredTrade :=
  { id := id, userId := userId, tradingAccountId := accountId,
    symbol := t.symbol, side := t.side, qty := jnumStr t.qty,
    entryPrice := jnumStr t.entryPrice,
    exitPrice := t.exitPrice.map jnumStr,
    entryTime := some t.entryTime, exitTime := t.exitTime,
    fees := jnumStr f, pnl := t.pnl.map jnumStr,
    brokerExecutionId := t.brokerExecutionId,
    rowHash := some hash, importSource := source }

/-- One iteration of the `for (const row of rows)` loop of
`importCsvTrades`.  The surrounding `try`/`catch` turns any rejection
inside the body — including a failed database call, and the `TypeError`
from `parsedTrade.fees.toString()` when the fees cell normalized to
`null` — into an `errors` entry, and the loop continues. -/
def processRow (dbFail : DbSchedule) (userId accountId source : String)
    (m : MappingSpec) (st : ImpState) (row : CsvRow) : ImpState :=
  match parseCsvRow row m with
  | none => { st with errors := st.errors ++ ["Failed to parse row"] }
  | some t =>
    let h := generateRowHash t accountId
    if dbFail st.opCount then
      { st with errors := st.errors ++ ["Error processing row"],
                opCount := st.opCount + 1 }
    else
      let found := st.ledger.find? (fun r => r.rowHash = some h)
      match t.fees with
      | none =>
        { st with errors := st.errors ++ ["Error processing row"],
                  opCount := st.opCount + 1 }
      | some f =>
        if dbFail (st.opCount + 1) then
          { st with errors := st.errors ++ ["Error processing row"],
                    opCount := st.opCount + 2 }
        else
          match found with
          | some ex =>
            { st with updated := st.updated + 1,
                      ledger := st.ledger.map (fun r =>
                        if r.id = ex.id then
                          mkTradeData userId accountId t f h source ex.id
                        else r),
                      days := addDay t.entryTime.iso st.days,
                      opCount := st.opCount + 2 }
          | none =>
            { st with inserted := st.inserted + 1,
                      ledger := st.ledger ++
                        [mkTradeData userId accountId t f h source st.nextId],
                      nextId := st.nextId + 1,
                      days := addDay t.entryTime.iso st.days,
                      opCount := st.opCount + 2 }

/-- The returned value and stores of one `importCsvTrades` call. -/
structure ImportOutput where
  result : ImportResult
  ledger : List StoredTrade
  metrics : List MetricRow
  nextId : Nat
  deriving Repr

/-- `importCsvTrades(userId, accountId, rows, mapping, source)` against
a ledger and metrics store. -/
def importCsvTrades (dbFail : DbSchedule) (userId accountId : String)
    (rows : List CsvRow) (m : MappingSpec) (source : String)
    (ledger : List StoredTrade) (metrics : List MetricRow) (nextId : Nat) :
    ImportOutput :=
  let st := rows.foldl (processRow dbFail userId accountId source m)
    { ledger := ledger, nextId := nextId }
  { result := { inserted := st.inserted, updated := st.updated,
                daysTouched := st.days, errors := st.errors },
    ledger := st.ledger,
    metrics := recalculateDailyMetrics userId accountId st.days st.ledger metrics,
    nextId := st.nextId }

/-! ### Ingestion tokens (`emailIngest.ts` / `storage.ts`) -/

/-- A `userIngestTokens` row. -/
structure TokenRec where
  userId : String
  token : String
  isActive : Bool
  deriving DecidableEq, Repr

/-- `generateIngestToken(userId)`: return the user's existing active
token, otherwise insert a fresh one (the random `nanoid(10)` is modelled
by the caller-supplied `fresh`).  Returns the token and the updated
table. -/
def generateIngestToken (userId : String) (fresh : String)
    (table : List TokenRec) : String × List TokenRec :=
  match table.find? (fun r => r.userId = userId) with
  | some existing =>
    if existing.isActive then (existing.token, table)
    else (fresh, table ++ [⟨userId, fresh, true⟩])
  | none => (fresh, table ++ [⟨userId, fresh, true⟩])

/-- Outcome of `getTradingViewWebhookConfig`. -/
inductive ConfigResp
  | unauthorized
  | userNotFound
  | ok (userToken : String)
  deriving DecidableEq, Repr

/-- `getTradingViewWebhookConfig`: authenticate, check the user row
exists, then the same get-or-create token logic as
`generateIngestToken`. -/
def getTradingViewWebhookConfig (authUserId : Option String)
    (users : List String) (table : List TokenRec) (fresh : String) :
    ConfigResp × List TokenRec :=
  match authUserId with
  | none => (ConfigResp.unauthorized, table)
  | some userId =>
    if users.contains userId then
      match table.find? (fun r => r.userId = userId) with
      | some existing =>
        if existing.isActive then (ConfigResp.ok existing.token, table)
        else (ConfigResp.ok fresh, table ++ [⟨userId, fresh, true⟩])
      | none => (ConfigResp.ok fresh, table ++ [⟨userId, fresh, true⟩])
    else (ConfigResp.userNotFound, table)

/-! ### TradingView webhook adapter (`storage.ts`) -/

/-- The TradingView webhook JSON payload. -/
structure TVPayload where
  userToken : String
  accountTag : String
  symbol : String
  side : String
  qty : String
  price : String
  time : String
  orderId : Option String := none
  screenshotUrl : Option String := none
  alertText : Option String := none
  deriving DecidableEq, Repr

/-- A journal entry row, reduced to the fields the adapter writes. -/
structure JournalRec where
  userId : String
  tradingAccountId : Option String
  entryDate : String
  title : String
  body : String
  screenshot : Option String
  deriving DecidableEq, Repr

/-- The mutable stores the webhook handler can write. -/
structure TVState where
  trades : List StoredTrade
  journal : List JournalRec
  deriving DecidableEq, Repr

/-- The handler's HTTP outcome.  `serverError` is the outer catch-all
500 (`'Webhook processing failed'`) reached when a step inside the
handler throws. -/
inductive TVResponse
  | invalidSecret
  | userNotFound
  | accountNotFound
  | serverError
  | ok (tradeId : Nat)
  deriving DecidableEq, Repr

/-- `verifyWebhookSecret`: false when `TV_SECRET` is unset, otherwise
strict equality with the `x-webhook-secret` header. -/
def verifyWebhookSecret (expected provided : Option String) : Bool :=
  match expected with
  | none => false
  | some e => provided = some e

/-- `resolveUserFromToken`: look the token up in `userIngestTokens`. -/
def resolveUserFromToken (token : String) (table : List TokenRec) : Option String :=
  (table.find? (fun r => r.token = token)).map TokenRec.userId

/-- `findTradingAccountByTag`: the source returns the placeholder
`'default-account-id'` for every tag ("in production would query
tradingAccounts table"). -/
def findTradingAccountByTag (_userId _accountTag : String) : Option String :=
  some "default-account-id"

/-- `normalizeSide` of `storage.ts` (exact case-insensitive match,
unlike the CSV normalizer's substring test). -/
def normalizeSide (side : String) : String :=
  if strUpper side = "BUY" ∨ strUpper side = "LONG" then "long"
  else if strUpper side = "SELL" ∨ strUpper side = "SHORT" then "short"
  else "long"

/-- `new Date(payload.time || Date.now())`: an empty time falls back to
the current clock; a non-empty time that does not parse produces a JS
`Invalid Date`, modelled by `none`. -/
def webhookTime (time : String) (now : JSDate) : Option JSDate :=
  if time = "" then some now else jsDateParse time

/-- The trade row inserted by `createTradeIntent`; the computed
`executedAt` date is stored as-is, even when it is an Invalid Date. -/
def tvTradeRow (userId accountId : String) (p : TVPayload)
    (executedAt : Option JSDate) (freshId : Nat) : StoredTrade :=
  { id := freshId, userId := userId, tradingAccountId := accountId,
    symbol := p.symbol, side := normalizeSide p.side, qty := p.qty,
    entryPrice := p.price, exitPrice := none, entryTime := executedAt,
    exitTime := none, fees := "0", pnl := none, rowHash := none,
    source := some "tv",
    externalId := some (p.orderId.getD ("tv_" ++ natStr freshId)),
    importSource := "tradingview_webhook" }

/-- The journal entry written by `createJournalEntryWithScreenshot`. -/
def tvJournalRow (userId accountId : String) (p : TVPayload) (executedAt : JSDate)
    (screenshotUrl : Option String) : JournalRec :=
  { userId := userId, tradingAccountId := some accountId,
    entryDate := executedAt.iso,
    title := "TradingView Alert - " ++ p.symbol,
    body := p.alertText.getD
      (p.side ++ " " ++ p.qty ++ " " ++ p.symbol ++ " @ " ++ p.price),
    screenshot := screenshotUrl }

/-- `handleTradingViewWebhook`: verify the shared secret, resolve user
and account, insert the trade intent, write the journal entry
(`storeScreenshot` returns the URL as-is), and mark the day pending
reconciliation (the source only logs there, so no store changes).
When the payload's non-empty `time` does not parse, `createTradeIntent`
still inserts the trade (with the Invalid Date), but
`createJournalEntryWithScreenshot` then throws in
`new Date(...).toISOString()`; the rethrown error reaches the outer
catch, which answers 500 — with the trade kept and no journal entry. -/
def handleTradingViewWebhook (expectedSecret providedSecret : Option String)
    (p : TVPayload) (tokens : List TokenRec) (now : JSDate) (freshId : Nat)
    (st : TVState) : TVResponse × TVState :=
  if ¬ verifyWebhookSecret expectedSecret providedSecret then
    (TVResponse.invalidSecret, st)
  else
    match resolveUserFromToken p.userToken tokens with
    | none => (TVResponse.userNotFound, st)
    | some userId =>
      match findTradingAccountByTag userId p.accountTag with
      | none => (TVResponse.accountNotFound, st)
      | some accountId =>
        let executedAt := webhookTime p.time now
        let st1 : TVState :=
          { st with trades := st.trades ++
              [tvTradeRow userId accountId p executedAt freshId] }
        match executedAt with
        | none => (TVResponse.serverError, st1)
        | some d =>
          (TVResponse.ok freshId,
            { st1 with journal := st1.journal ++
                [tvJournalRow userId accountId p d p.screenshotUrl] })


/-! ### Derived notions used by the statements -/

/-- The fingerprint column of a ledger. -/
def ledgerHashes (ledger : List StoredTrade) : List (Option String) :=
  ledger.map StoredTrade.rowHash

/-- The row ids of a ledger. -/
def ledgerIds (ledger : List StoredTrade) : List Nat :=
  ledger.map StoredTrade.id

/-- The fingerprints of the parseable rows of a batch, in input order. -/
def rowsHashes (rows : List CsvRow) (m : MappingSpec) (accountId : String) :
    List String :=
  rows.filterMap (fun r => (parseCsvRow r m).map (fun t => generateRowHash t accountId))

/-- A row is missing a mandatory field: one of symbol, side, quantity,
entry price, entry timestamp normalizes to `null`. -/
def mandatoryMissing (row : CsvRow) (m : MappingSpec) : Bool :=
  normalizeSymbol (getCell row m.symbol) = none ∨
  normalizeSideCsv (getCell row m.side) = none ∨
  normalizeNumber (getCell row m.qty) = none ∨
  normalizeNumber (getCell row m.entryPrice) = none ∨
  normalizeDate (getCell row m.entryTime) = none

/-- Value equality on optional numbers. -/
def JNum.optSameVal : Option JNum → Option JNum → Prop
  | none, none => True
  | some a, some b => a.sameVal b
  | _, _ => False

instance (a b : JNum) : Decidable (a.sameVal b) := by
  unfold JNum.sameVal
  infer_instance

instance (o o' : Option JNum) : Decidable (JNum.optSameVal o o') := by
  cases o <;> cases o' <;> simp only [JNum.optSameVal] <;> infer_instance

/-- A row parses into a candidate whose fees value is present (the
ingestion loop stores such a row without throwing). -/
def parsesWithFees (r : CsvRow) (m : MappingSpec) : Bool :=
  match parseCsvRow r m with
  | some t => t.fees ≠ none
  | none => false

/-! ### Concrete fixtures for counterexamples and witnesses -/

/-- A plain manual mapping used by the fixtures. -/
def mapFix : MappingSpec :=
  { symbol := "sym", side := "side", qty := "qty", entryPrice := "ep",
    entryTime := "et" }

/-- A well-formed raw record. -/
def rowES : CsvRow :=
  [("sym", "ES"), ("side", "Buy"), ("qty", "2"), ("ep", "100"),
   ("et", "2024-01-05")]

/-- A second well-formed raw record with a different fingerprint. -/
def rowNQ : CsvRow :=
  [("sym", "NQ"), ("side", "Sell"), ("qty", "1"), ("ep", "200"),
   ("et", "2024-01-05")]

/-- A record with an empty (missing) mandatory symbol cell. -/
def rowNoSym : CsvRow :=
  [("sym", ""), ("side", "Buy"), ("qty", "2"), ("ep", "100"),
   ("et", "2024-01-05")]

/-- A record whose quantity cell normalizes to the number `0`:
every mandatory field normalizes to a non-null value. -/
def rowZeroQty : CsvRow :=
  [("sym", "ES"), ("side", "Buy"), ("qty", "0"), ("ep", "100"),
   ("et", "2024-01-05")]

/-- A record whose quantity cell is `"0.0"`: its parsed value is `0`,
so the JS truthiness guard rejects the row. -/
def rowZeroDotQty : CsvRow :=
  [("sym", "ES"), ("side", "Buy"), ("qty", "0.0"), ("ep", "100"),
   ("et", "2024-01-05")]

/-- A concrete trade candidate. -/
def tradeFix : ParsedTrade :=
  { symbol := "ES", side := "long", qty := ⟨2, 1⟩, entryPrice := ⟨100, 1⟩,
    exitPrice := some ⟨110, 1⟩, entryTime := ⟨1704412800000, "2024-01-05"⟩,
    exitTime := some ⟨1704416400000, "2024-01-05"⟩, fees := some ⟨1, 1⟩,
    pnl := some ⟨20, 1⟩, brokerExecutionId := none }

/-- A stored ledger row fixture. -/
def storedFix (id : Nat) (date pnl fees : String) : StoredTrade :=
  { id := id, userId := "u", tradingAccountId := "a", symbol := "ES",
    side := "long", qty := "1/1", entryPrice := "100/1",
    entryTime := some ⟨0, date⟩, fees := fees, pnl := some pnl,
    rowHash := some "h", importSource := "csv" }

/-- The metrics-correctness ledger: the four example rows of the claim
on 2024-01-05 plus one extra row of the same account on 2024-01-06. -/
def metricsLedger : List StoredTrade :=
  [storedFix 0 "2024-01-05" "100" "1", storedFix 1 "2024-01-05" "-40" "1",
   storedFix 2 "2024-01-05" "0" "0", storedFix 3 "2024-01-05" "-10" "1",
   storedFix 4 "2024-01-06" "7" "0"]

/-! ## Theorems -/

/-! ### Injectivity of the renderings -/

theorem digChar_isDigit (d : Nat) : (digChar d).isDigit = true := by
  unfold digChar
  repeat' split
  all_goals decide

theorem digChar_inj {d e : Nat} (hd : d < 10) (he : e < 10)
    (h : digChar d = digChar e) : d = e := by
  have key : ∀ x, x < 10 → ∀ y, y < 10 → digChar x = digChar y → x = y := by decide
  exact key d hd e he h

theorem map_digChar_inj : ∀ {l1 l2 : List Nat}, (∀ x ∈ l1, x < 10) →
    (∀ x ∈ l2, x < 10) → l1.map digChar = l2.map digChar → l1 = l2
  | [], [], _, _, _ => rfl
  | [], _ :: _, _, _, h => by simp at h
  | _ :: _, [], _, _, h => by simp at h
  | a :: l1, b :: l2, h1, h2, h => by
    simp only [List.map_cons, List.cons.injEq] at h
    have ha : a = b := digChar_inj (h1 a (by simp)) (h2 b (by simp)) h.1
    have := map_digChar_inj (fun x hx => h1 x (by simp [hx]))
      (fun x hx => h2 x (by simp [hx])) h.2
    rw [ha, this]

theorem string_mk_inj {l1 l2 : List Char} (h : String.mk l1 = String.mk l2) :
    l1 = l2 := by
  injection h

theorem natDigitsAux_eq : ∀ (fuel n : Nat), n ≤ fuel →
    natDigitsAux fuel n = Nat.digits 10 n
  | 0, n, h => by
    have : n = 0 := Nat.le_zero.mp h
    subst this
    simp [natDigitsAux]
  | fuel + 1, n, h => by
    unfold natDigitsAux
    split
    · rename_i hn
      subst hn
      simp
    · rename_i hn
      have hpos : 0 < n := Nat.pos_of_ne_zero hn
      rw [natDigitsAux_eq fuel (n / 10)
        (by omega)]
      · rw [Nat.digits_def' (by norm_num : 1 < 10) hpos]

theorem natDigits_eq (n : Nat) : natDigits n = Nat.digits 10 n :=
  natDigitsAux_eq n n le_rfl

theorem gcdAux_eq : ∀ (fuel x y : Nat), x ≤ fuel → gcdAux fuel x y = Nat.gcd x y
  | 0, x, y, h => by
    have hx : x = 0 := Nat.le_zero.mp h
    subst hx
    simp [gcdAux]
  | fuel + 1, x, y, h => by
    unfold gcdAux
    split
    · rename_i hx
      subst hx
      simp
    · rename_i hx
      have hpos : 0 < x := Nat.pos_of_ne_zero hx
      have hlt := Nat.mod_lt y hpos
      rw [gcdAux_eq fuel (y % x) x (by omega)]
      · exact (Nat.gcd_rec x y).symm

theorem natGcd_eq (x y : Nat) : natGcd x y = Nat.gcd x y :=
  gcdAux_eq x x y le_rfl

theorem natStr_data_digits (n : Nat) : ∀ c ∈ (natStr n).data, c.isDigit = true := by
  unfold natStr
  rw [natDigits_eq]
  split
  · intro c hc
    simp only [String.data] at hc
    simp at hc
    subst hc
    decide
  · intro c hc
    simp only [String.data] at hc
    simp only [List.mem_map] at hc
    obtain ⟨d, _, rfl⟩ := hc
    exact digChar_isDigit d

theorem natStr_ne_nil (n : Nat) : (natStr n).data ≠ [] := by
  unfold natStr
  rw [natDigits_eq]
  split
  · simp [String.data]
  · simp only [String.data]
    simp only [ne_eq, List.map_eq_nil_iff, List.reverse_eq_nil_iff]
    exact Nat.digits_ne_nil_iff_ne_zero.mpr (by assumption)

theorem natStr_eq_zero_str {n : Nat} (h : natStr n = "0") : n = 0 := by
  unfold natStr at h
  rw [natDigits_eq] at h
  split at h
  · assumption
  · exfalso
    have hd : ((Nat.digits 10 n).reverse).map digChar = ['0'] := by
      have := string_mk_inj (show String.mk ((Nat.digits 10 n).reverse.map digChar) =
        String.mk ['0'] from h)
      exact this
    have h0 : ((Nat.digits 10 n).reverse).map digChar = ([0] : List Nat).map digChar := by
      rw [hd]; rfl
    have hrev : (Nat.digits 10 n).reverse = [0] :=
      map_digChar_inj (fun x hx => Nat.digits_lt_base (by norm_num) (List.mem_reverse.mp hx))
        (by simp) h0
    have hdig : Nat.digits 10 n = [0] := by
      have := congrArg List.reverse hrev
      simpa using this
    have hofd := Nat.ofDigits_digits 10 n
    rw [hdig] at hofd
    simp [Nat.ofDigits] at hofd
    exact absurd hofd.symm (by assumption)

theorem natStr_inj {m n : Nat} (h : natStr m = natStr n) : m = n := by
  by_cases hm : m = 0 <;> by_cases hn : n = 0
  · exact hm.trans hn.symm
  · exfalso
    rw [hm] at h
    exact hn (natStr_eq_zero_str h.symm)
  · exfalso
    rw [hn] at h
    exact hm (natStr_eq_zero_str h)
  · unfold natStr at h
    rw [natDigits_eq m, natDigits_eq n] at h
    rw [if_neg hm, if_neg hn] at h
    have hd := string_mk_inj h
    have hrev : (Nat.digits 10 m).reverse = (Nat.digits 10 n).reverse :=
      map_digChar_inj (fun x hx => Nat.digits_lt_base (by norm_num) (List.mem_reverse.mp hx))
        (fun x hx => Nat.digits_lt_base (by norm_num) (List.mem_reverse.mp hx)) hd
    have hdig : Nat.digits 10 m = Nat.digits 10 n := by
      have := congrArg List.reverse hrev
      simpa using this
    exact Nat.digits.injective 10 hdig

theorem str_data_append (a b : String) : (a ++ b).data = a.data ++ b.data := by
  cases a; cases b; rfl

theorem str_ext {a b : String} (h : a.data = b.data) : a = b := by
  cases a; cases b; exact congrArg String.mk h

theorem natStr_head_digit (n : Nat) :
    ∃ c cs, (natStr n).data = c :: cs ∧ c.isDigit = true := by
  cases hcs : (natStr n).data with
  | nil => exact absurd hcs (natStr_ne_nil _)
  | cons c cs => exact ⟨c, cs, rfl, natStr_data_digits n c (by rw [hcs]; simp)⟩

theorem str_cancel_left {a x y : String} (h : a ++ x = a ++ y) : x = y := by
  apply str_ext
  have hd := congrArg String.data h
  rw [str_data_append, str_data_append] at hd
  exact List.append_cancel_left hd

theorem str_cancel_right {s x y : String} (h : x ++ s = y ++ s) : x = y := by
  apply str_ext
  have hd := congrArg String.data h
  rw [str_data_append, str_data_append] at hd
  exact List.append_cancel_right hd

theorem intStr_chars {i : Int} : ∀ c ∈ (intStr i).data, c.isDigit = true ∨ c = '-' := by
  unfold intStr
  split
  · intro c hc
    rw [str_data_append] at hc
    rcases List.mem_append.mp hc with hc | hc
    · right
      simpa using hc
    · left
      exact natStr_data_digits _ c hc
  · intro c hc
    left
    exact natStr_data_digits _ c hc

theorem intStr_ne_nil (i : Int) : (intStr i).data ≠ [] := by
  unfold intStr
  split
  · rw [str_data_append]
    simp
  · exact natStr_ne_nil _

theorem intStr_inj {i j : Int} (h : intStr i = intStr j) : i = j := by
  unfold intStr at h
  by_cases hi : i < 0 <;> by_cases hj : j < 0
  · rw [if_pos hi, if_pos hj] at h
    have hn : i.natAbs = j.natAbs := natStr_inj (str_cancel_left h)
    omega
  · rw [if_pos hi, if_neg hj] at h
    exfalso
    have hd := congrArg String.data h
    rw [str_data_append] at hd
    obtain ⟨c, cs, hcs, hdig⟩ := natStr_head_digit j.natAbs
    rw [hcs] at hd
    have hc : '-' = c := by simpa using congrArg List.headI hd
    rw [← hc] at hdig
    simp at hdig
  · rw [if_neg hi, if_pos hj] at h
    exfalso
    have hd := congrArg String.data h
    rw [str_data_append] at hd
    obtain ⟨c, cs, hcs, hdig⟩ := natStr_head_digit i.natAbs
    rw [hcs] at hd
    have hc : c = '-' := by simpa using congrArg List.headI hd
    rw [hc] at hdig
    simp at hdig
  · rw [if_neg hi, if_neg hj] at h
    have hn : i.natAbs = j.natAbs := natStr_inj h
    omega

/-- Splitting a character list at a separator that occurs in neither
left part is unambiguous. -/
theorem split_at_sep {c : Char} : ∀ {l1 l2 r1 r2 : List Char}, c ∉ l1 → c ∉ l2 →
    l1 ++ c :: r1 = l2 ++ c :: r2 → l1 = l2 ∧ r1 = r2
  | [], [], _, _, _, _, h => by simpa using h
  | [], b :: l2, _, _, _, h2, h => by
    simp only [List.nil_append, List.cons_append, List.cons.injEq] at h
    exact absurd (h.1 ▸ List.mem_cons_self b l2) (h.1 ▸ h2)
  | a :: l1, [], _, _, h1, _, h => by
    simp only [List.nil_append, List.cons_append, List.cons.injEq] at h
    exact absurd (h.1 ▸ List.mem_cons_self a l1) (h.1 ▸ h1)
  | a :: l1, b :: l2, r1, r2, h1, h2, h => by
    simp only [List.cons_append, List.cons.injEq] at h
    have hrec := split_at_sep (fun hm => h1 (List.mem_cons_of_mem a hm))
      (fun hm => h2 (List.mem_cons_of_mem b hm)) h.2
    exact ⟨by rw [h.1, hrec.1], hrec.2⟩

theorem jnumStr_data (q : JNum) :
    (jnumStr q).data = (intStr q.num).data ++ '/' :: (natStr q.den).data := by
  unfold jnumStr
  rw [str_data_append, str_data_append, List.append_assoc]
  rfl

theorem slash_not_mem_intStr (i : Int) : '/' ∉ (intStr i).data := by
  intro hm
  rcases intStr_chars '/' hm with hd | hd
  · simp at hd
  · simp at hd

theorem jnumStr_inj {p q : JNum} (h : jnumStr p = jnumStr q) : p = q := by
  have hd := congrArg String.data h
  rw [jnumStr_data, jnumStr_data] at hd
  have := split_at_sep (slash_not_mem_intStr p.num) (slash_not_mem_intStr q.num) hd
  have hnum : p.num = q.num := intStr_inj (str_ext this.1)
  have hden : p.den = q.den := natStr_inj (str_ext this.2)
  cases p; cases q
  simp_all

theorem jnumStr_ne_undefined (q : JNum) : jnumStr q ≠ "undefined" := by
  intro h
  have hd := congrArg String.data h
  rw [jnumStr_data] at hd
  obtain ⟨c, cs, hcs⟩ : ∃ c cs, (intStr q.num).data = c :: cs := by
    cases hcs : (intStr q.num).data with
    | nil => exact absurd hcs (intStr_ne_nil _)
    | cons c cs => exact ⟨c, cs, rfl⟩
  rw [hcs] at hd
  have hc : c = 'u' := by simpa using congrArg List.headI hd
  have := intStr_chars c (by rw [hcs]; simp)
  rw [hc] at this
  simp_all

theorem optJnumStr_inj {o o' : Option JNum} (h : optJnumStr o = optJnumStr o') :
    o = o' := by
  cases o <;> cases o' <;> simp_all [optJnumStr]
  · exact absurd h.symm (jnumStr_ne_undefined _)
  · exact absurd h (jnumStr_ne_undefined _)
  · exact jnumStr_inj h

theorem intStr_ne_undefined (i : Int) : intStr i ≠ "undefined" := by
  intro h
  have hd := congrArg String.data h
  obtain ⟨c, cs, hcs⟩ : ∃ c cs, (intStr i).data = c :: cs := by
    cases hcs : (intStr i).data with
    | nil => exact absurd hcs (intStr_ne_nil _)
    | cons c cs => exact ⟨c, cs, rfl⟩
  rw [hcs] at hd
  have hc : c = 'u' := by simpa using congrArg List.headI hd
  have := intStr_chars c (by rw [hcs]; simp)
  rw [hc] at this
  simp_all

theorem optIntStr_inj {o o' : Option Int} (h : optIntStr o = optIntStr o') :
    o = o' := by
  cases o <;> cases o' <;> simp_all [optIntStr]
  · exact absurd h.symm (intStr_ne_undefined _)
  · exact absurd h (intStr_ne_undefined _)
  · exact intStr_inj h


/-! ### Row Parser lemmas -/

theorem parseCsvRow_none_iff (row : CsvRow) (m : MappingSpec) :
    parseCsvRow row m = none ↔
      normalizeSymbol (getCell row m.symbol) = none ∨
      normalizeSideCsv (getCell row m.side) = none ∨
      numFalsy (normalizeNumber (getCell row m.qty)) = true ∨
      numFalsy (normalizeNumber (getCell row m.entryPrice)) = true ∨
      normalizeDate (getCell row m.entryTime) = none := by
  simp only [parseCsvRow]
  split
  · rename_i hcond
    simp only [mandatoryFalsy, decide_eq_true_eq] at hcond
    simp [hcond]
  · rename_i hcond
    simp only [mandatoryFalsy, decide_eq_true_eq] at hcond
    simp [hcond]

theorem mandatoryMissing_parse_none {row : CsvRow} {m : MappingSpec}
    (h : mandatoryMissing row m = true) : parseCsvRow row m = none := by
  rw [parseCsvRow_none_iff]
  simp only [mandatoryMissing, decide_eq_true_eq] at h
  rcases h with h | h | h | h | h
  · exact Or.inl h
  · exact Or.inr (Or.inl h)
  · exact Or.inr (Or.inr (Or.inl (by rw [h]; rfl)))
  · exact Or.inr (Or.inr (Or.inr (Or.inl (by rw [h]; rfl))))
  · exact Or.inr (Or.inr (Or.inr (Or.inr h)))

theorem rowsHashes_nil (m : MappingSpec) (a : String) : rowsHashes [] m a = [] := rfl

theorem rowsHashes_cons_some {r : CsvRow} {rows : List CsvRow} {m : MappingSpec}
    {a : String} {t : ParsedTrade} (h : parseCsvRow r m = some t) :
    rowsHashes (r :: rows) m a = generateRowHash t a :: rowsHashes rows m a := by
  simp [rowsHashes, h]

theorem rowsHashes_cons_none {r : CsvRow} {rows : List CsvRow} {m : MappingSpec}
    {a : String} (h : parseCsvRow r m = none) :
    rowsHashes (r :: rows) m a = rowsHashes rows m a := by
  simp [rowsHashes, h]

theorem mem_rowsHashes {r : CsvRow} {rows : List CsvRow} {m : MappingSpec}
    {a : String} {t : ParsedTrade} (hr : r ∈ rows) (h : parseCsvRow r m = some t) :
    generateRowHash t a ∈ rowsHashes rows m a := by
  simp only [rowsHashes, List.mem_filterMap]
  exact ⟨r, hr, by rw [h]; rfl⟩

/-! ### Step lemmas for the import loop -/

theorem processRow_parse_fail {dbFail : DbSchedule} {u a src : String}
    {m : MappingSpec} {st : ImpState} {r : CsvRow}
    (hpt : parseCsvRow r m = none) :
    processRow dbFail u a src m st r =
      { st with errors := st.errors ++ ["Failed to parse row"] } := by
  simp [processRow, hpt]

theorem processRow_fees_none {u a src : String} {m : MappingSpec} {st : ImpState}
    {r : CsvRow} {t : ParsedTrade} (hpt : parseCsvRow r m = some t)
    (hf : t.fees = none) :
    processRow noFail u a src m st r =
      { st with errors := st.errors ++ ["Error processing row"],
                opCount := st.opCount + 1 } := by
  simp [processRow, hpt, noFail, hf]

theorem processRow_insert {u a src : String} {m : MappingSpec} {st : ImpState}
    {r : CsvRow} {t : ParsedTrade} {f : JNum} (hpt : parseCsvRow r m = some t)
    (hf : t.fees = some f)
    (hfind : st.ledger.find?
      (fun x => x.rowHash = some (generateRowHash t a)) = none) :
    processRow noFail u a src m st r =
      { st with inserted := st.inserted + 1,
                ledger := st.ledger ++
                  [mkTradeData u a t f (generateRowHash t a) src st.nextId],
                nextId := st.nextId + 1,
                days := addDay t.entryTime.iso st.days,
                opCount := st.opCount + 2 } := by
  simp [processRow, hpt, noFail, hf, hfind]

theorem processRow_update {u a src : String} {m : MappingSpec} {st : ImpState}
    {r : CsvRow} {t : ParsedTrade} {f : JNum} {ex : StoredTrade}
    (hpt : parseCsvRow r m = some t) (hf : t.fees = some f)
    (hfind : st.ledger.find?
      (fun x => x.rowHash = some (generateRowHash t a)) = some ex) :
    processRow noFail u a src m st r =
      { st with updated := st.updated + 1,
                ledger := st.ledger.map (fun row =>
                  if row.id = ex.id then
                    mkTradeData u a t f (generateRowHash t a) src ex.id
                  else row),
                days := addDay t.entryTime.iso st.days,
                opCount := st.opCount + 2 } := by
  simp [processRow, hpt, noFail, hf, hfind]

/-- A run of the import loop in which every row parses (with a present
fees value) and every fingerprint is fresh: each row inserts. -/
theorem import_run_fresh (u a src : String) (m : MappingSpec) :
    ∀ (rows : List CsvRow) (st : ImpState),
    (∀ r ∈ rows, ∃ t, parseCsvRow r m = some t ∧ t.fees ≠ none) →
    (rowsHashes rows m a).Nodup →
    (∀ h ∈ rowsHashes rows m a, some h ∉ ledgerHashes st.ledger) →
    (∀ r ∈ st.ledger, r.id < st.nextId) →
    (rows.foldl (processRow noFail u a src m) st).inserted =
      st.inserted + rows.length ∧
    (rows.foldl (processRow noFail u a src m) st).updated = st.updated ∧
    ledgerHashes (rows.foldl (processRow noFail u a src m) st).ledger =
      ledgerHashes st.ledger ++ (rowsHashes rows m a).map some ∧
    (∀ r ∈ (rows.foldl (processRow noFail u a src m) st).ledger,
      r.id < (rows.foldl (processRow noFail u a src m) st).nextId) ∧
    ((ledgerIds st.ledger).Nodup →
      (ledgerIds (rows.foldl (processRow noFail u a src m) st).ledger).Nodup)
  | [], st, _, _, _, hbound => by
    exact ⟨by simp, rfl, by simp [rowsHashes], hbound, fun h => h⟩
  | r :: rs, st, hall, hnodup, hnotin, hbound => by
    obtain ⟨t, hpt, hf⟩ := hall r (List.mem_cons_self r rs)
    obtain ⟨f, hfeq⟩ := Option.ne_none_iff_exists'.mp hf
    have hhead : rowsHashes (r :: rs) m a =
        generateRowHash t a :: rowsHashes rs m a := rowsHashes_cons_some hpt
    rw [hhead] at hnodup hnotin
    have hfind : st.ledger.find?
        (fun x => x.rowHash = some (generateRowHash t a)) = none := by
      rw [List.find?_eq_none]
      intro x hx
      simp only [decide_eq_true_eq]
      intro hcontra
      exact hnotin (generateRowHash t a) (List.mem_cons_self _ _)
        (List.mem_map.mpr ⟨x, hx, hcontra⟩)
    have hstep := @processRow_insert u a src m st r t f hpt hfeq hfind
    set st1 : ImpState :=
      { st with inserted := st.inserted + 1,
                ledger := st.ledger ++
                  [mkTradeData u a t f (generateRowHash t a) src st.nextId],
                nextId := st.nextId + 1,
                days := addDay t.entryTime.iso st.days,
                opCount := st.opCount + 2 } with hst1
    have hIns : st1.inserted = st.inserted + 1 := rfl
    have hUpd : st1.updated = st.updated := rfl
    have hLed : st1.ledger = st.ledger ++
        [mkTradeData u a t f (generateRowHash t a) src st.nextId] := rfl
    have hNext : st1.nextId = st.nextId + 1 := rfl
    have hhash1 : ledgerHashes st1.ledger =
        ledgerHashes st.ledger ++ [some (generateRowHash t a)] := by
      rw [hLed]
      simp [ledgerHashes, mkTradeData]
    have hids1 : ledgerIds st1.ledger = ledgerIds st.ledger ++ [st.nextId] := by
      rw [hLed]
      simp [ledgerIds, mkTradeData]
    have hrec := import_run_fresh u a src m rs st1
      (fun x hx => hall x (List.mem_cons_of_mem r hx))
      hnodup.of_cons
      (by
        intro h hh
        rw [hhash1]
        simp only [List.mem_append, List.mem_singleton]
        rintro (hmem | hmem)
        · exact hnotin h (List.mem_cons_of_mem _ hh) hmem
        · have heq : h = generateRowHash t a := by simpa using hmem
          subst heq
          exact (List.rel_of_pairwise_cons hnodup hh) rfl)
      (by
        intro x hx
        rw [hLed] at hx
        rw [hNext]
        rcases List.mem_append.mp hx with hx | hx
        · exact Nat.lt_succ_of_lt (hbound x hx)
        · have hxeq : x = mkTradeData u a t f (generateRowHash t a) src st.nextId := by
            simpa using hx
          subst hxeq
          exact Nat.lt_succ_self _)
    rw [List.foldl_cons, hstep]
    refine ⟨?_, ?_, ?_, ?_, ?_⟩
    · rw [hrec.1, hIns]
      simp only [List.length_cons]
      omega
    · rw [hrec.2.1, hUpd]
    · rw [hrec.2.2.1, hhash1, hhead]
      simp
    · exact hrec.2.2.2.1
    · intro hnd
      apply hrec.2.2.2.2
      rw [hids1, List.nodup_append]
      refine ⟨hnd, List.nodup_singleton _, ?_⟩
      intro x hx hx'
      have hxeq : x = st.nextId := by simpa using hx'
      subst hxeq
      obtain ⟨rr, hrr, hrrid⟩ : ∃ rr ∈ st.ledger, rr.id = st.nextId := by
        simpa [ledgerIds] using hx
      exact absurd hrrid (Nat.ne_of_lt (hbound rr hrr))

/-- A run of the import loop in which every row parses (with a present
fees value) and every fingerprint is already in the ledger: each row
updates in place, and the ledger's fingerprints and ids are unchanged. -/
theorem import_run_present (u a src : String) (m : MappingSpec) :
    ∀ (rows : List CsvRow) (st : ImpState),
    (∀ r ∈ rows, ∃ t, parseCsvRow r m = some t ∧ t.fees ≠ none ∧
      some (generateRowHash t a) ∈ ledgerHashes st.ledger) →
    (ledgerIds st.ledger).Nodup →
    (rows.foldl (processRow noFail u a src m) st).inserted = st.inserted ∧
    (rows.foldl (processRow noFail u a src m) st).updated =
      st.updated + rows.length ∧
    ledgerHashes (rows.foldl (processRow noFail u a src m) st).ledger =
      ledgerHashes st.ledger ∧
    ledgerIds (rows.foldl (processRow noFail u a src m) st).ledger =
      ledgerIds st.ledger
  | [], st, _, _ => ⟨rfl, by simp, rfl, rfl⟩
  | r :: rs, st, hall, hnd => by
    obtain ⟨t, hpt, hf, hmem⟩ := hall r (List.mem_cons_self r rs)
    obtain ⟨f, hfeq⟩ := Option.ne_none_iff_exists'.mp hf
    have hsome : (st.ledger.find?
        (fun x => x.rowHash = some (generateRowHash t a))).isSome := by
      rw [List.find?_isSome]
      obtain ⟨x, hx, hxh⟩ := List.mem_map.mp hmem
      exact ⟨x, hx, by simp [hxh]⟩
    obtain ⟨ex, hfind⟩ := Option.isSome_iff_exists.mp hsome
    have hexhash : ex.rowHash = some (generateRowHash t a) := by
      have := List.find?_some hfind
      simpa using this
    have hexmem : ex ∈ st.ledger := List.mem_of_find?_eq_some hfind
    have hstep := @processRow_update u a src m st r t f ex hpt hfeq hfind
    set st1 : ImpState :=
      { st with updated := st.updated + 1,
                ledger := st.ledger.map (fun row =>
                  if row.id = ex.id then
                    mkTradeData u a t f (generateRowHash t a) src ex.id
                  else row),
                days := addDay t.entryTime.iso st.days,
                opCount := st.opCount + 2 } with hst1
    have hIns : st1.inserted = st.inserted := rfl
    have hUpd : st1.updated = st.updated + 1 := rfl
    have hNext : st1.nextId = st.nextId := rfl
    have hLed : st1.ledger = st.ledger.map (fun row =>
        if row.id = ex.id then
          mkTradeData u a t f (generateRowHash t a) src ex.id
        else row) := rfl
    have hrowid : ∀ row ∈ st.ledger, row.id = ex.id → row = ex :=
      fun row hrow hid => List.inj_on_of_nodup_map hnd hrow hexmem hid
    have hhash1 : ledgerHashes st1.ledger = ledgerHashes st.ledger := by
      rw [hLed]
      simp only [ledgerHashes, List.map_map]
      apply List.map_congr_left
      intro row hrow
      simp only [Function.comp_apply]
      split
      · rename_i hid
        have hre : row = ex := hrowid row hrow hid
        rw [hre, hexhash]
        rfl
      · rfl
    have hids1 : ledgerIds st1.ledger = ledgerIds st.ledger := by
      rw [hLed]
      simp only [ledgerIds, List.map_map]
      apply List.map_congr_left
      intro row hrow
      simp only [Function.comp_apply]
      split
      · rename_i hid
        rw [← hid]
        rfl
      · rfl
    have hrec := import_run_present u a src m rs st1
      (by
        intro x hx
        obtain ⟨t', h1, h2, h3⟩ := hall x (List.mem_cons_of_mem r hx)
        exact ⟨t', h1, h2, by rw [hhash1]; exact h3⟩)
      (by rw [hids1]; exact hnd)
    rw [List.foldl_cons, hstep]
    refine ⟨?_, ?_, ?_, ?_⟩
    · rw [hrec.1, hIns]
    · rw [hrec.2.1, hUpd]
      simp only [List.length_cons]
      omega
    · rw [hrec.2.2.1, hhash1]
    · rw [hrec.2.2.2, hids1]

/-- Every row of a batch lands in exactly one bucket — inserted,
updated, or an error entry — under any database failure schedule. -/
theorem import_run_total (dbFail : DbSchedule) (u a src : String) (m : MappingSpec) :
    ∀ (rows : List CsvRow) (st : ImpState),
    (rows.foldl (processRow dbFail u a src m) st).inserted +
      (rows.foldl (processRow dbFail u a src m) st).updated +
      (rows.foldl (processRow dbFail u a src m) st).errors.length =
    st.inserted + st.updated + st.errors.length + rows.length
  | [], st => by simp
  | r :: rs, st => by
    rw [List.foldl_cons]
    rw [import_run_total dbFail u a src m rs (processRow dbFail u a src m st r)]
    have hone : (processRow dbFail u a src m st r).inserted +
        (processRow dbFail u a src m st r).updated +
        (processRow dbFail u a src m st r).errors.length =
        st.inserted + st.updated + st.errors.length + 1 := by
      unfold processRow
      cases hpt : parseCsvRow r m with
      | none => (simp; try omega)
      | some t =>
        simp only
        split
        · (simp; try omega)
        · cases hfe : t.fees with
          | none => (simp; try omega)
          | some f =>
            simp only
            split
            · (simp; try omega)
            · cases hfind : st.ledger.find?
                (fun x => x.rowHash = some (generateRowHash t a)) with
              | none => (simp; try omega)
              | some ex => (simp; try omega)
    simp only [List.length_cons]
    omega

/-- Under the happy path, the error list grows by exactly the rows that
are missing a mandatory field, provided every other row parses with a
present fees value. -/
theorem import_run_errors (u a src : String) (m : MappingSpec) :
    ∀ (rows : List CsvRow) (st : ImpState),
    (∀ r ∈ rows, mandatoryMissing r m = true ∨
      ∃ t, parseCsvRow r m = some t ∧ t.fees ≠ none) →
    (rows.foldl (processRow noFail u a src m) st).errors.length =
      st.errors.length + (rows.filter (fun r => mandatoryMissing r m)).length
  | [], st, _ => by simp
  | r :: rs, st, hall => by
    rw [List.foldl_cons]
    rcases hall r (List.mem_cons_self r rs) with hmm | ⟨t, hpt, hf⟩
    · rw [processRow_parse_fail (mandatoryMissing_parse_none hmm)]
      rw [import_run_errors u a src m rs _
        (fun x hx => hall x (List.mem_cons_of_mem r hx))]
      simp [List.filter_cons, hmm]
      omega
    · have hmm : mandatoryMissing r m = false := by
        rcases Bool.eq_false_or_eq_true (mandatoryMissing r m) with h | h
        · rw [mandatoryMissing_parse_none h] at hpt
          exact Option.noConfusion hpt
        · exact h
      obtain ⟨f, hfeq⟩ := Option.ne_none_iff_exists'.mp hf
      cases hfind : st.ledger.find?
          (fun x => x.rowHash = some (generateRowHash t a)) with
      | none =>
        rw [@processRow_insert u a src m st r t f hpt hfeq hfind]
        rw [import_run_errors u a src m rs _
          (fun x hx => hall x (List.mem_cons_of_mem r hx))]
        simp [List.filter_cons, hmm]
      | some ex =>
        rw [@processRow_update u a src m st r t f ex hpt hfeq hfind]
        rw [import_run_errors u a src m rs _
          (fun x hx => hall x (List.mem_cons_of_mem r hx))]
        simp [List.filter_cons, hmm]

theorem parsesWithFees_iff {r : CsvRow} {m : MappingSpec} :
    parsesWithFees r m = true ↔
      ∃ t, parseCsvRow r m = some t ∧ t.fees ≠ none := by
  unfold parsesWithFees
  cases hpt : parseCsvRow r m with
  | none => simp
  | some t => simp [hpt]

/-! ### Claim theorems -/

/-- C1 (counterexample): a batch whose two rows are identical — both
parse successfully — yields `inserted = 1, updated = 1` on its first run
against an empty ledger, not `inserted = 2, updated = 0`: the second
occurrence of the fingerprint updates the row the first one inserted. -/
theorem import_twice_duplicate_rows_counterexample :
    (parseCsvRow rowES mapFix).isSome = true ∧
    (importCsvTrades noFail "u" "a" [rowES, rowES] mapFix "csv" [] [] 0).result.inserted = 1 ∧
    (importCsvTrades noFail "u" "a" [rowES, rowES] mapFix "csv" [] [] 0).result.updated = 1 := by
  decide

/-- C1 (amended): for a batch whose rows all parse successfully (with a
present fees value) and whose fingerprints are pairwise distinct, two
imports against an initially empty ledger yield
`inserted = N, updated = 0` on the first call and
`inserted = 0, updated = N` on the second. -/
theorem import_idempotence (u a src : String) (m : MappingSpec) (rows : List CsvRow)
    (hall : ∀ r ∈ rows, parsesWithFees r m = true)
    (hnodup : (rowsHashes rows m a).Nodup) :
    (importCsvTrades noFail u a rows m src [] [] 0).result.inserted = rows.length ∧
    (importCsvTrades noFail u a rows m src [] [] 0).result.updated = 0 ∧
    (importCsvTrades noFail u a rows m src
      (importCsvTrades noFail u a rows m src [] [] 0).ledger
      (importCsvTrades noFail u a rows m src [] [] 0).metrics
      (importCsvTrades noFail u a rows m src [] [] 0).nextId).result.inserted = 0 ∧
    (importCsvTrades noFail u a rows m src
      (importCsvTrades noFail u a rows m src [] [] 0).ledger
      (importCsvTrades noFail u a rows m src [] [] 0).metrics
      (importCsvTrades noFail u a rows m src [] [] 0).nextId).result.updated =
      rows.length := by
  have hall' : ∀ r ∈ rows, ∃ t, parseCsvRow r m = some t ∧ t.fees ≠ none :=
    fun r hr => parsesWithFees_iff.mp (hall r hr)
  have h1 := import_run_fresh u a src m rows { ledger := [], nextId := 0 }
    hall' hnodup (by simp [ledgerHashes]) (by simp)
  have hids0 : (ledgerIds (([] : List StoredTrade))).Nodup := by
    simp [ledgerIds]
  have hled1 : (importCsvTrades noFail u a rows m src [] [] 0).ledger =
      (rows.foldl (processRow noFail u a src m)
        { ledger := [], nextId := 0 }).ledger := rfl
  have h2 := import_run_present u a src m rows
    { ledger := (importCsvTrades noFail u a rows m src [] [] 0).ledger,
      nextId := (importCsvTrades noFail u a rows m src [] [] 0).nextId }
    (by
      intro r hr
      obtain ⟨t, hpt, hf⟩ := hall' r hr
      refine ⟨t, hpt, hf, ?_⟩
      show some (generateRowHash t a) ∈
        ledgerHashes (importCsvTrades noFail u a rows m src [] [] 0).ledger
      rw [hled1, h1.2.2.1]
      simp only [ledgerHashes, List.map_nil, List.nil_append]
      exact List.mem_map_of_mem some (mem_rowsHashes hr hpt))
    (by
      show (ledgerIds (importCsvTrades noFail u a rows m src [] [] 0).ledger).Nodup
      rw [hled1]
      exact h1.2.2.2.2 hids0)
  have e1 : (importCsvTrades noFail u a rows m src [] [] 0).result.inserted =
      (rows.foldl (processRow noFail u a src m)
        { ledger := [], nextId := 0 }).inserted := rfl
  have e2 : (importCsvTrades noFail u a rows m src [] [] 0).result.updated =
      (rows.foldl (processRow noFail u a src m)
        { ledger := [], nextId := 0 }).updated := rfl
  have e3 : (importCsvTrades noFail u a rows m src
      (importCsvTrades noFail u a rows m src [] [] 0).ledger
      (importCsvTrades noFail u a rows m src [] [] 0).metrics
      (importCsvTrades noFail u a rows m src [] [] 0).nextId).result.inserted =
      (rows.foldl (processRow noFail u a src m)
        { ledger := (importCsvTrades noFail u a rows m src [] [] 0).ledger,
          nextId := (importCsvTrades noFail u a rows m src [] [] 0).nextId }).inserted :=
    rfl
  have e4 : (importCsvTrades noFail u a rows m src
      (importCsvTrades noFail u a rows m src [] [] 0).ledger
      (importCsvTrades noFail u a rows m src [] [] 0).metrics
      (importCsvTrades noFail u a rows m src [] [] 0).nextId).result.updated =
      (rows.foldl (processRow noFail u a src m)
        { ledger := (importCsvTrades noFail u a rows m src [] [] 0).ledger,
          nextId := (importCsvTrades noFail u a rows m src [] [] 0).nextId }).updated :=
    rfl
  refine ⟨?_, ?_, ?_, ?_⟩
  · rw [e1, h1.1]
    simp
  · rw [e2, h1.2.1]
  · rw [e3, h2.1]
  · rw [e4, h2.2.1]
    simp

/-- C1 (witness): two distinct well-formed rows, imported twice from an
empty ledger: `(2, 0)` then `(0, 2)`. -/
theorem import_idempotence_witness :
    (importCsvTrades noFail "u" "a" [rowES, rowNQ] mapFix "csv" [] [] 0).result.inserted = 2 ∧
    (importCsvTrades noFail "u" "a" [rowES, rowNQ] mapFix "csv" [] [] 0).result.updated = 0 ∧
    (importCsvTrades noFail "u" "a" [rowES, rowNQ] mapFix "csv"
      (importCsvTrades noFail "u" "a" [rowES, rowNQ] mapFix "csv" [] [] 0).ledger
      (importCsvTrades noFail "u" "a" [rowES, rowNQ] mapFix "csv" [] [] 0).metrics
      (importCsvTrades noFail "u" "a" [rowES, rowNQ] mapFix "csv" [] [] 0).nextId).result.inserted = 0 ∧
    (importCsvTrades noFail "u" "a" [rowES, rowNQ] mapFix "csv"
      (importCsvTrades noFail "u" "a" [rowES, rowNQ] mapFix "csv" [] [] 0).ledger
      (importCsvTrades noFail "u" "a" [rowES, rowNQ] mapFix "csv" [] [] 0).metrics
      (importCsvTrades noFail "u" "a" [rowES, rowNQ] mapFix "csv" [] [] 0).nextId).result.updated = 2 :=
  import_idempotence "u" "a" "csv" mapFix [rowES, rowNQ] (by decide) (by decide)

/-- C2 (code bug): `recalculateDailyMetrics` queries the trades of the
user and account with no date filter, contradicting its own comment
`// Get all trades for this date`.  On a ledger holding the claim's four
example rows (P&L 100, −40, 0, −10; fees 1, 1, 0, 1) on 2024-01-05 plus
one extra row (P&L 7, fees 0) on 2024-01-06, the stored metrics row for
2024-01-05 aggregates all five rows — gross 57, net 54, 2 wins — while
the date-pure aggregate of the claim is gross 50, net 47, winCount 1,
lossCount 2. -/
theorem recalc_metrics_ignores_date :
    recalculateDailyMetrics "u" "a" ["2024-01-05"] metricsLedger [] =
      [{ userId := "u", tradingAccountId := "a", tradeDate := "2024-01-05",
         grossPnl := ⟨57, 1⟩, netPnl := ⟨54, 1⟩, winCount := 2, lossCount := 2,
         tradeCount := 5 }] ∧
    specDayAggregate "u" "a" "2024-01-05" metricsLedger =
      (⟨50, 1⟩, ⟨47, 1⟩, 1, 2) ∧
    (recalculateDailyMetrics "u" "a" ["2024-01-05"] metricsLedger []).map
        MetricRow.grossPnl ≠
      [(specDayAggregate "u" "a" "2024-01-05" metricsLedger).1] := by
  decide

/-- C4: for a batch in which every row either misses a mandatory field
(symbol, side, quantity, entry price or entry timestamp normalizes to
null) or parses cleanly, the import processes exactly the parseable
rows — `inserted + updated = N - K` — and records exactly one error
entry per missing-field row, without aborting the batch. -/
theorem partial_batch_tolerance (u a src : String) (m : MappingSpec)
    (rows : List CsvRow)
    (hall : ∀ r ∈ rows, mandatoryMissing r m = true ∨ parsesWithFees r m = true) :
    (importCsvTrades noFail u a rows m src [] [] 0).result.errors.length =
      (rows.filter (fun r => mandatoryMissing r m)).length ∧
    (importCsvTrades noFail u a rows m src [] [] 0).result.inserted +
      (importCsvTrades noFail u a rows m src [] [] 0).result.updated =
      rows.length - (rows.filter (fun r => mandatoryMissing r m)).length := by
  have hall' : ∀ r ∈ rows, mandatoryMissing r m = true ∨
      ∃ t, parseCsvRow r m = some t ∧ t.fees ≠ none := by
    intro r hr
    rcases hall r hr with h | h
    · exact Or.inl h
    · exact Or.inr (parsesWithFees_iff.mp h)
  have herr := import_run_errors u a src m rows { ledger := [], nextId := 0 } hall'
  have htot := import_run_total noFail u a src m rows { ledger := [], nextId := 0 }
  have e1 : (importCsvTrades noFail u a rows m src [] [] 0).result.errors =
      (rows.foldl (processRow noFail u a src m)
        { ledger := [], nextId := 0 }).errors := rfl
  have e2 : (importCsvTrades noFail u a rows m src [] [] 0).result.inserted =
      (rows.foldl (processRow noFail u a src m)
        { ledger := [], nextId := 0 }).inserted := rfl
  have e3 : (importCsvTrades noFail u a rows m src [] [] 0).result.updated =
      (rows.foldl (processRow noFail u a src m)
        { ledger := [], nextId := 0 }).updated := rfl
  simp only [show ({ ledger := [], nextId := 0 } : ImpState).errors = [] from rfl,
    show ({ ledger := [], nextId := 0 } : ImpState).inserted = 0 from rfl,
    show ({ ledger := [], nextId := 0 } : ImpState).updated = 0 from rfl,
    List.length_nil] at herr htot
  constructor
  · rw [e1, herr]
    simp
  · rw [e2, e3]
    omega

/-- C4 (witness): a three-row batch with one row missing its symbol:
one error entry, two processed rows. -/
theorem partial_batch_tolerance_witness :
    (importCsvTrades noFail "u" "a" [rowES, rowNoSym, rowNQ] mapFix "csv"
      [] [] 0).result.errors.length = 1 ∧
    (importCsvTrades noFail "u" "a" [rowES, rowNoSym, rowNQ] mapFix "csv"
        [] [] 0).result.inserted +
      (importCsvTrades noFail "u" "a" [rowES, rowNoSym, rowNQ] mapFix "csv"
        [] [] 0).result.updated = 2 :=
  partial_batch_tolerance "u" "a" "csv" mapFix [rowES, rowNoSym, rowNQ] (by decide)

/-- C5 (counterexample): a batch of two rows whose first database call
(the dedup lookup of row one) fails is not aborted: the failure is
caught by the per-row `catch`, recorded as an `errors` entry, the second
row is still imported, and a partial `ImportResult` is returned — no
operation failure is surfaced. -/
theorem storage_failure_not_fatal_counterexample :
    (importCsvTrades (fun k => k = 0) "u" "a" [rowES, rowNQ] mapFix "csv"
      [] [] 0).result =
      { inserted := 1, updated := 0, daysTouched := ["2024-01-05"],
        errors := ["Error processing row"] } := by
  decide

/-- C5 (amended): under any schedule of database-call failures,
`importCsvTrades` returns an `ImportResult` in which every row of the
batch is accounted for exactly once — inserted, updated, or recorded in
the error list (database failures land in the error list and the batch
continues; no operation failure is raised). -/
theorem import_row_accounting (dbFail : DbSchedule) (u a src : String)
    (m : MappingSpec) (rows : List CsvRow) (ledger : List StoredTrade)
    (metrics : List MetricRow) (nextId : Nat) :
    (importCsvTrades dbFail u a rows m src ledger metrics nextId).result.inserted +
      (importCsvTrades dbFail u a rows m src ledger metrics nextId).result.updated +
      (importCsvTrades dbFail u a rows m src ledger metrics nextId).result.errors.length =
      rows.length := by
  have htot := import_run_total dbFail u a src m rows
    { ledger := ledger, nextId := nextId }
  have e1 : (importCsvTrades dbFail u a rows m src ledger metrics nextId).result.inserted =
      (rows.foldl (processRow dbFail u a src m)
        { ledger := ledger, nextId := nextId }).inserted := rfl
  have e2 : (importCsvTrades dbFail u a rows m src ledger metrics nextId).result.updated =
      (rows.foldl (processRow dbFail u a src m)
        { ledger := ledger, nextId := nextId }).updated := rfl
  have e3 : (importCsvTrades dbFail u a rows m src ledger metrics nextId).result.errors =
      (rows.foldl (processRow dbFail u a src m)
        { ledger := ledger, nextId := nextId }).errors := rfl
  simp only [show ({ ledger := ledger, nextId := nextId } : ImpState).errors = [] from rfl,
    show ({ ledger := ledger, nextId := nextId } : ImpState).inserted = 0 from rfl,
    show ({ ledger := ledger, nextId := nextId } : ImpState).updated = 0 from rfl,
    List.length_nil] at htot
  rw [e1, e2, e3]
  omega

/-- C6 (counterexample): a row whose quantity cell is `"0"`: every
mandatory field normalizes to a non-null value — quantity normalizes to
the number `0` — yet `parseCsvRow` returns a failure, because the JS
truthiness test `!qty` also rejects `0`. -/
theorem parse_zero_qty_counterexample :
    normalizeSymbol (getCell rowZeroQty mapFix.symbol) = some "ES" ∧
    normalizeSideCsv (getCell rowZeroQty mapFix.side) = some "long" ∧
    normalizeNumber (getCell rowZeroQty mapFix.qty) = some ⟨0, 1⟩ ∧
    normalizeNumber (getCell rowZeroQty mapFix.entryPrice) = some ⟨100, 1⟩ ∧
    (normalizeDate (getCell rowZeroQty mapFix.entryTime)).isSome = true ∧
    parseCsvRow rowZeroQty mapFix = none := by
  decide

/-- C6 (amended): `parseCsvRow` fails exactly when a mandatory field —
symbol, side, quantity, entry price, entry timestamp — is JS-falsy
after normalization: it normalizes to null, or (for quantity and entry
price) to a number of value `0` — which non-numeric cells do, since the
number normalizer collapses `NaN` to `0`.  The characterization never
mentions the optional fields: their absence is never a failure. -/
theorem parse_row_failure_characterization (row : CsvRow) (m : MappingSpec) :
    parseCsvRow row m = none ↔
      normalizeSymbol (getCell row m.symbol) = none ∨
      normalizeSideCsv (getCell row m.side) = none ∨
      numFalsy (normalizeNumber (getCell row m.qty)) = true ∨
      numFalsy (normalizeNumber (getCell row m.entryPrice)) = true ∨
      normalizeDate (getCell row m.entryTime) = none :=
  parseCsvRow_none_iff row m

/-- C6 (witness): the characterization applied to the zero-quantity
fixtures, including the value-zero cell `"0.0"`. -/
theorem parse_row_failure_characterization_witness :
    parseCsvRow rowZeroQty mapFix = none ∧
    parseCsvRow rowZeroDotQty mapFix = none :=
  ⟨(parse_row_failure_characterization rowZeroQty mapFix).mpr (by decide),
   (parse_row_failure_characterization rowZeroDotQty mapFix).mpr (by decide)⟩

theorem JNum.sameVal_refl (a : JNum) : a.sameVal a := rfl

theorem JNum.optSameVal_refl (o : Option JNum) : JNum.optSameVal o o := by
  cases o
  · trivial
  · exact JNum.sameVal_refl _

/-- C3: the fingerprint of `generateRowHash` changes whenever the entry
price, exit price, quantity, side, symbol, entry timestamp or exit
timestamp of an otherwise-identical candidate changes (numeric fields:
changes in value; timestamps: changes in epoch milliseconds), and is
unchanged when only the fees and the P&L change. -/
theorem fingerprint_sensitivity (acc : String) (t : ParsedTrade) :
    (∀ p : JNum, ¬ p.sameVal t.entryPrice →
      generateRowHash { t with entryPrice := p } acc ≠ generateRowHash t acc) ∧
    (∀ o : Option JNum, ¬ JNum.optSameVal o t.exitPrice →
      generateRowHash { t with exitPrice := o } acc ≠ generateRowHash t acc) ∧
    (∀ q : JNum, ¬ q.sameVal t.qty →
      generateRowHash { t with qty := q } acc ≠ generateRowHash t acc) ∧
    (∀ s : String, s ≠ t.side →
      generateRowHash { t with side := s } acc ≠ generateRowHash t acc) ∧
    (∀ s : String, s ≠ t.symbol →
      generateRowHash { t with symbol := s } acc ≠ generateRowHash t acc) ∧
    (∀ d : JSDate, d.ms ≠ t.entryTime.ms →
      generateRowHash { t with entryTime := d } acc ≠ generateRowHash t acc) ∧
    (∀ o : Option JSDate, o.map JSDate.ms ≠ t.exitTime.map JSDate.ms →
      generateRowHash { t with exitTime := o } acc ≠ generateRowHash t acc) ∧
    (∀ f pn, generateRowHash { t with fees := f, pnl := pn } acc =
      generateRowHash t acc) := by
  refine ⟨?_, ?_, ?_, ?_, ?_, ?_, ?_, ?_⟩
  · intro p hp h
    simp only [generateRowHash] at h
    iterate 12 replace h := str_cancel_left h
    replace h := str_cancel_right h
    have heq := jnumStr_inj h
    subst heq
    exact hp (JNum.sameVal_refl _)
  · intro o ho h
    simp only [generateRowHash] at h
    iterate 14 replace h := str_cancel_left h
    have heq := optJnumStr_inj h
    subst heq
    exact ho (JNum.optSameVal_refl _)
  · intro q hq h
    simp only [generateRowHash] at h
    iterate 6 replace h := str_cancel_left h
    replace h := str_cancel_right h
    have heq := jnumStr_inj h
    subst heq
    exact hq (JNum.sameVal_refl _)
  · intro s hs h
    simp only [generateRowHash] at h
    iterate 4 replace h := str_cancel_left h
    replace h := str_cancel_right h
    exact hs h
  · intro s hs h
    simp only [generateRowHash] at h
    iterate 2 replace h := str_cancel_left h
    replace h := str_cancel_right h
    exact hs h
  · intro d hd h
    simp only [generateRowHash] at h
    iterate 8 replace h := str_cancel_left h
    replace h := str_cancel_right h
    exact hd (intStr_inj h)
  · intro o ho h
    simp only [generateRowHash] at h
    iterate 10 replace h := str_cancel_left h
    replace h := str_cancel_right h
    exact ho (optIntStr_inj h)
  · intro f pn
    rfl

/-- C3 (witness): each sensitivity at a concrete candidate, plus the
fees/P&L invariance. -/
theorem fingerprint_sensitivity_witness :
    generateRowHash { tradeFix with entryPrice := ⟨101, 1⟩ } "acct" ≠
      generateRowHash tradeFix "acct" ∧
    generateRowHash { tradeFix with exitPrice := none } "acct" ≠
      generateRowHash tradeFix "acct" ∧
    generateRowHash { tradeFix with qty := ⟨3, 1⟩ } "acct" ≠
      generateRowHash tradeFix "acct" ∧
    generateRowHash { tradeFix with side := "short" } "acct" ≠
      generateRowHash tradeFix "acct" ∧
    generateRowHash { tradeFix with symbol := "NQ" } "acct" ≠
      generateRowHash tradeFix "acct" ∧
    generateRowHash { tradeFix with entryTime := ⟨0, "1970-01-01"⟩ } "acct" ≠
      generateRowHash tradeFix "acct" ∧
    generateRowHash { tradeFix with exitTime := none } "acct" ≠
      generateRowHash tradeFix "acct" ∧
    generateRowHash { tradeFix with fees := none, pnl := some ⟨-5, 1⟩ } "acct" =
      generateRowHash tradeFix "acct" :=
  ⟨(fingerprint_sensitivity "acct" tradeFix).1 ⟨101, 1⟩ (by decide),
   (fingerprint_sensitivity "acct" tradeFix).2.1 none (by decide),
   (fingerprint_sensitivity "acct" tradeFix).2.2.1 ⟨3, 1⟩ (by decide),
   (fingerprint_sensitivity "acct" tradeFix).2.2.2.1 "short" (by decide),
   (fingerprint_sensitivity "acct" tradeFix).2.2.2.2.1 "NQ" (by decide),
   (fingerprint_sensitivity "acct" tradeFix).2.2.2.2.2.1 ⟨0, "1970-01-01"⟩ (by decide),
   (fingerprint_sensitivity "acct" tradeFix).2.2.2.2.2.2.1 none (by decide),
   (fingerprint_sensitivity "acct" tradeFix).2.2.2.2.2.2.2 none (some ⟨-5, 1⟩)⟩

/-- C7: format auto-detection returns no source exactly when every
signature matches at most 3 of the supplied headers — equivalently, a
source is detected exactly when some signature matches at least 4
headers (case-insensitively) — and the first signature at threshold in
the fixed priority order apex, topstep, tpt is the one returned. -/
theorem detect_threshold_priority (headers : List String) :
    (detectCsvFormat headers = none ↔
      matchCount apexHeaders headers < 4 ∧
      matchCount topstepHeaders headers < 4 ∧
      matchCount tptHeaders headers < 4) ∧
    ((detectCsvFormat headers).isSome = true ↔
      4 ≤ matchCount apexHeaders headers ∨
      4 ≤ matchCount topstepHeaders headers ∨
      4 ≤ matchCount tptHeaders headers) ∧
    (4 ≤ matchCount apexHeaders headers →
      detectCsvFormat headers = some ("apex", apexMapping)) ∧
    (matchCount apexHeaders headers < 4 →
      4 ≤ matchCount topstepHeaders headers →
      detectCsvFormat headers = some ("topstep", topstepMapping)) ∧
    (matchCount apexHeaders headers < 4 →
      matchCount topstepHeaders headers < 4 →
      4 ≤ matchCount tptHeaders headers →
      detectCsvFormat headers = some ("tpt", tptMapping)) := by
  unfold detectCsvFormat
  split_ifs with h1 h2 h3 <;>
    refine ⟨?_, ?_, ?_, ?_, ?_⟩ <;>
    simp_all

/-- C7 (witness): the specification's scenario header set is detected
as apex; a header set holding all topstep and tpt signature headers
(but only one apex header) is detected as topstep — the first signature
at threshold in priority order; and a header set with only 3 signature
headers is not auto-detected. -/
theorem detect_threshold_priority_witness :
    detectCsvFormat ["Entry Time", "Exit Time", "Contract", "P/L",
      "Commissions", "Side", "Qty", "Entry Price", "Exit Price"] =
      some ("apex", apexMapping) ∧
    detectCsvFormat (topstepHeaders ++ tptHeaders) =
      some ("topstep", topstepMapping) ∧
    detectCsvFormat ["Instrument", "Quantity", "Buy/Sell"] = none :=
  ⟨(detect_threshold_priority ["Entry Time", "Exit Time", "Contract", "P/L",
      "Commissions", "Side", "Qty", "Entry Price", "Exit Price"]).2.2.1
      (by decide),
   (detect_threshold_priority (topstepHeaders ++ tptHeaders)).2.2.2.1
      (by decide) (by decide),
   (detect_threshold_priority ["Instrument", "Quantity", "Buy/Sell"]).1.mpr
      (by decide)⟩

/-- C8 (counterexample): the CSV side normalizer matches by substring,
not by case-insensitive equality: `"sellout"` is none of buy, long,
sell, short, so the claim maps it to the default `long`, but
`normalizeValue` returns `short` (it contains `"sell"`); the webhook
normalizer, matching exactly, returns `long` for the same input — the
two normalizers disagree. -/
theorem side_substring_counterexample :
    normalizeSideCsv "sellout" = some "short" ∧
    normalizeSide "sellout" = "long" ∧
    strLower "sellout" ≠ "buy" ∧ strLower "sellout" ≠ "long" ∧
    strLower "sellout" ≠ "sell" ∧ strLower "sellout" ≠ "short" := by
  decide

/-- C8 (amended): the CSV normalizer maps any value whose lowercased
trimmed form contains `buy` or `long` to `long`, otherwise any value
containing `sell` or `short` to `short`, and everything else to `long`;
the webhook normalizer maps an exact case-insensitive `BUY`/`LONG` to
`long`, an exact `SELL`/`SHORT` to `short`, and everything else to
`long`.  In particular `"SELL"` normalizes to short and `"BUY"` to long
in both. -/
theorem side_normalization_characterization :
    (∀ s : String, strIncludes (strLower (strTrim s)) "buy" = true ∨
        strIncludes (strLower (strTrim s)) "long" = true →
      csvSideOf s = "long") ∧
    (∀ s : String, strIncludes (strLower (strTrim s)) "buy" = false →
      strIncludes (strLower (strTrim s)) "long" = false →
      (strIncludes (strLower (strTrim s)) "sell" = true ∨
        strIncludes (strLower (strTrim s)) "short" = true) →
      csvSideOf s = "short") ∧
    (∀ s : String, strIncludes (strLower (strTrim s)) "buy" = false →
      strIncludes (strLower (strTrim s)) "long" = false →
      strIncludes (strLower (strTrim s)) "sell" = false →
      strIncludes (strLower (strTrim s)) "short" = false →
      csvSideOf s = "long") ∧
    (∀ s : String, strUpper s = "BUY" ∨ strUpper s = "LONG" →
      normalizeSide s = "long") ∧
    (∀ s : String, strUpper s = "SELL" ∨ strUpper s = "SHORT" →
      normalizeSide s = "short") ∧
    (∀ s : String, strUpper s ≠ "BUY" → strUpper s ≠ "LONG" →
      strUpper s ≠ "SELL" → strUpper s ≠ "SHORT" →
      normalizeSide s = "long") ∧
    (normalizeSideCsv "SELL" = some "short" ∧ normalizeSide "SELL" = "short" ∧
      normalizeSideCsv "BUY" = some "long" ∧ normalizeSide "BUY" = "long") := by
  refine ⟨?_, ?_, ?_, ?_, ?_, ?_, by decide⟩
  · intro s h
    simp only [csvSideOf]
    rw [if_pos h]
  · intro s h1 h2 h3
    simp only [csvSideOf]
    rw [if_neg (by simp [h1, h2]), if_pos h3]
  · intro s h1 h2 h3 h4
    simp only [csvSideOf]
    rw [if_neg (by simp [h1, h2]), if_neg (by simp [h3, h4]), if_neg ?_]
    rintro (hl | hl)
    · rw [hl] at h2
      exact absurd h2 (by decide)
    · rw [hl] at h4
      exact absurd h4 (by decide)
  · intro s h
    rcases h with h | h <;> simp only [normalizeSide, h] <;> decide
  · intro s h
    rcases h with h | h <;> simp only [normalizeSide, h] <;> decide
  · intro s h1 h2 h3 h4
    simp only [normalizeSide]
    rw [if_neg ?_, if_neg ?_]
    · rintro (h | h)
      · exact h3 h
      · exact h4 h
    · rintro (h | h)
      · exact h1 h
      · exact h2 h

/-- C8 (witness): the characterization applied to concrete inputs,
including the webhook normalizer's default on a non-matching string. -/
theorem side_normalization_characterization_witness :
    csvSideOf "Buy" = "long" ∧ csvSideOf "Sell" = "short" ∧
    normalizeSide "SELL" = "short" ∧ normalizeSide "BUY" = "long" ∧
    normalizeSide "sellout" = "long" :=
  ⟨side_normalization_characterization.1 "Buy" (by decide),
   side_normalization_characterization.2.1 "Sell" (by decide) (by decide) (by decide),
   side_normalization_characterization.2.2.2.2.1 "SELL" (by decide),
   side_normalization_characterization.2.2.2.1 "BUY" (by decide),
   side_normalization_characterization.2.2.2.2.2.1 "sellout" (by decide)
     (by decide) (by decide) (by decide)⟩

/-- C9 (counterexample): a correctly authenticated alert whose
non-empty `time` field does not parse as a date is a hard failure
beyond the three claimed paths: the handler answers the generic 500
(`serverError`), after the trade intent has already been inserted and
with no journal entry written. -/
theorem webhook_invalid_time_counterexample :
    handleTradingViewWebhook (some "s") (some "s")
        ⟨"tok", "apex-pa", "ES", "SELL", "1", "100", "garbage", none, none, none⟩
        [⟨"u1", "tok", true⟩] ⟨0, "1970-01-01"⟩ 7 ⟨[], []⟩ =
      (TVResponse.serverError,
        ⟨[tvTradeRow "u1" "default-account-id"
            ⟨"tok", "apex-pa", "ES", "SELL", "1", "100", "garbage", none, none, none⟩
            none 7], []⟩) ∧
    TVResponse.serverError ≠ TVResponse.invalidSecret ∧
    TVResponse.serverError ≠ TVResponse.userNotFound ∧
    TVResponse.serverError ≠ TVResponse.accountNotFound := by
  decide

/-- C9 (amended): the TradingView webhook handler rejects on a
shared-secret mismatch before touching the payload or the stores; with
a valid secret it rejects an unresolvable user token or trading account
before any write; a payload whose non-empty time field does not parse
makes the journal step throw after the trade intent was inserted,
surfacing a 500 with the trade kept and no journal entry; and on every
other input it succeeds, appending exactly one trade intent and one
journal entry.  These four are the adapter's only failure paths, and
only the first three reject before any state change. -/
theorem webhook_failure_paths (expSecret provSecret : Option String)
    (p : TVPayload) (tokens : List TokenRec) (now : JSDate) (freshId : Nat)
    (st : TVState) :
    (verifyWebhookSecret expSecret provSecret = false →
      handleTradingViewWebhook expSecret provSecret p tokens now freshId st =
        (TVResponse.invalidSecret, st)) ∧
    (verifyWebhookSecret expSecret provSecret = true →
      resolveUserFromToken p.userToken tokens = none →
      handleTradingViewWebhook expSecret provSecret p tokens now freshId st =
        (TVResponse.userNotFound, st)) ∧
    (∀ userId, verifyWebhookSecret expSecret provSecret = true →
      resolveUserFromToken p.userToken tokens = some userId →
      findTradingAccountByTag userId p.accountTag = none →
      handleTradingViewWebhook expSecret provSecret p tokens now freshId st =
        (TVResponse.accountNotFound, st)) ∧
    (∀ userId accountId, verifyWebhookSecret expSecret provSecret = true →
      resolveUserFromToken p.userToken tokens = some userId →
      findTradingAccountByTag userId p.accountTag = some accountId →
      webhookTime p.time now = none →
      handleTradingViewWebhook expSecret provSecret p tokens now freshId st =
        (TVResponse.serverError,
          { trades := st.trades ++ [tvTradeRow userId accountId p none freshId],
            journal := st.journal })) ∧
    (∀ userId accountId d, verifyWebhookSecret expSecret provSecret = true →
      resolveUserFromToken p.userToken tokens = some userId →
      findTradingAccountByTag userId p.accountTag = some accountId →
      webhookTime p.time now = some d →
      handleTradingViewWebhook expSecret provSecret p tokens now freshId st =
        (TVResponse.ok freshId,
          { trades := st.trades ++ [tvTradeRow userId accountId p (some d) freshId],
            journal := st.journal ++
              [tvJournalRow userId accountId p d p.screenshotUrl] })) := by
  refine ⟨?_, ?_, ?_, ?_, ?_⟩
  · intro h
    simp [handleTradingViewWebhook, h]
  · intro h1 h2
    simp [handleTradingViewWebhook, h1, h2]
  · intro userId h1 h2 h3
    simp [handleTradingViewWebhook, h1, h2, h3]
  · intro userId accountId h1 h2 h3 h4
    simp [handleTradingViewWebhook, h1, h2, h3, h4]
  · intro userId accountId d h1 h2 h3 h4
    simp [handleTradingViewWebhook, h1, h2, h3, h4]

/-- C9 (witness): the exercised paths at concrete inputs — wrong
secret, unknown token, invalid time, and a successful alert. -/
theorem webhook_failure_paths_witness :
    handleTradingViewWebhook (some "s") (some "wrong")
        ⟨"tok", "apex-pa", "ES", "SELL", "1", "100", "", none, none, none⟩
        [⟨"u1", "tok", true⟩] ⟨0, "1970-01-01"⟩ 7 ⟨[], []⟩ =
      (TVResponse.invalidSecret, ⟨[], []⟩) ∧
    handleTradingViewWebhook (some "s") (some "s")
        ⟨"nope", "apex-pa", "ES", "SELL", "1", "100", "", none, none, none⟩
        [⟨"u1", "tok", true⟩] ⟨0, "1970-01-01"⟩ 7 ⟨[], []⟩ =
      (TVResponse.userNotFound, ⟨[], []⟩) ∧
    handleTradingViewWebhook (some "s") (some "s")
        ⟨"tok", "apex-pa", "ES", "SELL", "1", "100", "garbage", none, none, none⟩
        [⟨"u1", "tok", true⟩] ⟨0, "1970-01-01"⟩ 7 ⟨[], []⟩ =
      (TVResponse.serverError,
        { trades := [tvTradeRow "u1" "default-account-id"
            ⟨"tok", "apex-pa", "ES", "SELL", "1", "100", "garbage", none, none, none⟩
            none 7],
          journal := [] }) ∧
    handleTradingViewWebhook (some "s") (some "s")
        ⟨"tok", "apex-pa", "ES", "SELL", "1", "100", "", none, none, none⟩
        [⟨"u1", "tok", true⟩] ⟨0, "1970-01-01"⟩ 7 ⟨[], []⟩ =
      (TVResponse.ok 7,
        { trades := [tvTradeRow "u1" "default-account-id"
            ⟨"tok", "apex-pa", "ES", "SELL", "1", "100", "", none, none, none⟩
            (some ⟨0, "1970-01-01"⟩) 7],
          journal := [tvJournalRow "u1" "default-account-id"
            ⟨"tok", "apex-pa", "ES", "SELL", "1", "100", "", none, none, none⟩
            ⟨0, "1970-01-01"⟩ none] }) :=
  ⟨(webhook_failure_paths (some "s") (some "wrong") _ _ _ _ _).1 (by decide),
   (webhook_failure_paths (some "s") (some "s") _ _ _ _ _).2.1 (by decide) (by decide),
   (webhook_failure_paths (some "s") (some "s") _ _ _ _ _).2.2.2.1 "u1"
      "default-account-id" (by decide) (by decide) (by decide) (by decide),
   (webhook_failure_paths (some "s") (some "s") _ _ _ _ _).2.2.2.2 "u1"
      "default-account-id" ⟨0, "1970-01-01"⟩ (by decide) (by decide) (by decide)
      (by decide)⟩

/-- C10: a user whose token table already holds their (active) record
gets that same token back from `generateIngestToken` and from the
webhook-config endpoint, with the table unchanged; and neither operation
ever removes or deactivates an existing token record — the table is
only ever preserved or appended to. -/
theorem ingest_token_idempotent (table : List TokenRec) (u fresh : String)
    (users : List String)
    (hact : ∀ r ∈ table, r.isActive = true)
    (hex : ∃ r ∈ table, r.userId = u)
    (husers : users.contains u = true) :
    (∃ r ∈ table, r.userId = u ∧
      generateIngestToken u fresh table = (r.token, table) ∧
      getTradingViewWebhookConfig (some u) users table fresh =
        (ConfigResp.ok r.token, table)) ∧
    (∀ (t' : List TokenRec) (u' f' : String), ∀ r ∈ t',
      r ∈ (generateIngestToken u' f' t').2 ∧
      r ∈ (getTradingViewWebhookConfig (some u') [u'] t' f').2) := by
  constructor
  · have hsome : (table.find? (fun r => r.userId = u)).isSome := by
      rw [List.find?_isSome]
      obtain ⟨r, hr, hru⟩ := hex
      exact ⟨r, hr, by simp [hru]⟩
    obtain ⟨r0, hfind⟩ := Option.isSome_iff_exists.mp hsome
    have hmem : r0 ∈ table := List.mem_of_find?_eq_some hfind
    have hru : r0.userId = u := by
      have := List.find?_some hfind
      simpa using this
    have hactive : r0.isActive = true := hact r0 hmem
    refine ⟨r0, hmem, hru, ?_, ?_⟩
    · simp [generateIngestToken, hfind, hactive]
    · have hmemu : u ∈ users := by simpa using husers
      simp [getTradingViewWebhookConfig, hmemu, hfind, hactive]
  · intro t' u' f' r hr
    constructor
    · unfold generateIngestToken
      cases hfind : t'.find? (fun x => x.userId = u') with
      | none => simp [hr]
      | some ex =>
        by_cases hac : ex.isActive = true
        · simp [hac, hr]
        · simp only [Bool.not_eq_true] at hac
          simp [hac, hr]
    · unfold getTradingViewWebhookConfig
      simp only [show (([u'] : List String).contains u') = true from by simp,
        if_true]
      cases hfind : t'.find? (fun x => x.userId = u') with
      | none => simp [hr]
      | some ex =>
        by_cases hac : ex.isActive = true
        · simp [hac, hr]
        · simp only [Bool.not_eq_true] at hac
          simp [hac, hr]

/-- C10 (witness): a user with one active token record: both operations
return it and leave the table unchanged. -/
theorem ingest_token_idempotent_witness :
    ∃ r ∈ ([⟨"u1", "tokA", true⟩] : List TokenRec), r.userId = "u1" ∧
      generateIngestToken "u1" "fresh" [⟨"u1", "tokA", true⟩] =
        (r.token, [⟨"u1", "tokA", true⟩]) ∧
      getTradingViewWebhookConfig (some "u1") ["u1"] [⟨"u1", "tokA", true⟩]
          "fresh" =
        (ConfigResp.ok r.token, [⟨"u1", "tokA", true⟩]) :=
  (ingest_token_idempotent [⟨"u1", "tokA", true⟩] "u1" "fresh" ["u1"]
    (by decide) (by decide) (by decide)).1
